import Mathlib

/-!
# Verification of the Windsor metric-retrieval client

A shallow embedding of `windsor_api.py` (classes `WindsorClient` and
`GA4Client`): date-range chunking, the fetch orchestrator, the single
fetch with connectivity retry and 400 schema fallback, numeric/date
coercion of result tables, the GA4 snake_case dialect fallback and rate
normalisation, and the facade methods' request parameters.

Modelling conventions:
* Calendar dates are represented by their proleptic Gregorian ordinals
  (`Nat`); `date.fromisoformat` / `isoformat` is the standard bijection
  between ISO date strings and ordinals, under which
  `timedelta(days = k)` is `· + k`.
* pandas DataFrames are column-major tables of `Cell`s; floats are `ℚ`.
* The network is a deterministic transport `Nat → List String → NetResult`
  mapping the sequence number of the HTTP call and the submitted field
  list to its outcome (a connectivity failure carries an identifier so
  that "the last failure is re-raised" is expressible).
-/

/-- `_QUARTER_DAYS = 90`, the chunk size for daily data. -/
def QUARTER_DAYS : Nat := 90

/-- `_MAX_RETRIES = 3`. -/
def MAX_RETRIES : Nat := 3

/-- `WindsorClient._make_chunks`'s while loop, over date ordinals.
`cursor` walks from `date_from`; each step emits
`(cursor, min (cursor + chunk_days - 1) d_to)` and restarts at the day
after the chunk end.  The source loops forever when `chunk_days = 0`
(and is only ever called with `chunk_days = 90`), so the guard also
requires `1 ≤ chunkDays`. -/
def chunksAux (dTo chunkDays : Nat) (cursor : Nat) : List (Nat × Nat) :=
  if h : 1 ≤ chunkDays ∧ cursor ≤ dTo then
    (cursor, min (cursor + chunkDays - 1) dTo) ::
      chunksAux dTo chunkDays (min (cursor + chunkDays - 1) dTo + 1)
  else []
termination_by dTo + 1 - cursor
decreasing_by omega

/-- `WindsorClient._make_chunks`. -/
def make_chunks (dFrom dTo chunkDays : Nat) : List (Nat × Nat) :=
  chunksAux dTo chunkDays dFrom

/-- Closed form of the chunk list: the `k`-th chunk starts at
`cursor + 90 * k` and ends at `min (cursor + 90 * k + 89) dTo`. -/
theorem chunksAux_closed (dTo : Nat) :
    ∀ n cursor, dTo + 1 - cursor = n → cursor ≤ dTo →
      chunksAux dTo 90 cursor =
        (List.range ((dTo - cursor) / 90 + 1)).map
          (fun k => (cursor + 90 * k, min (cursor + 90 * k + 89) dTo)) := by
  intro n
  induction n using Nat.strong_induction_on with
  | _ n ih =>
    intro cursor hn hc
    rw [chunksAux]
    rw [dif_pos ⟨by omega, hc⟩]
    by_cases hlast : dTo ≤ cursor + 89
    · have h1 : min (cursor + 90 - 1) dTo = dTo := by omega
      have h2 : (dTo - cursor) / 90 = 0 := by omega
      rw [h1, chunksAux, dif_neg (by omega), h2]
      simp only [Nat.zero_add, List.range_succ, List.range_zero, List.nil_append,
        List.map_cons, List.map_nil, List.cons.injEq, Prod.mk.injEq, and_true]
      omega
    · have h1 : min (cursor + 90 - 1) dTo = cursor + 89 := by omega
      rw [h1]
      have hrec := ih (dTo + 1 - (cursor + 90)) (by omega) (cursor + 90) rfl (by omega)
      rw [hrec]
      have hdiv : (dTo - cursor) / 90 + 1 = ((dTo - (cursor + 90)) / 90 + 1) + 1 := by
        omega
      conv_rhs => rw [hdiv, List.range_succ_eq_map]
      simp only [List.map_cons, List.map_map]
      refine congrArg₂ List.cons ?_ ?_
      · simp only [Prod.mk.injEq]
        omega
      · apply List.map_congr_left
        intro k _
        simp only [Function.comp_apply, Prod.mk.injEq]
        omega

/-- The closed form at the `make_chunks` entry point. -/
theorem make_chunks_closed (dFrom dTo : Nat) (h : dFrom ≤ dTo) :
    make_chunks dFrom dTo 90 =
      (List.range ((dTo - dFrom) / 90 + 1)).map
        (fun k => (dFrom + 90 * k, min (dFrom + 90 * k + 89) dTo)) :=
  chunksAux_closed dTo (dTo + 1 - dFrom) dFrom rfl h

/-- C1: for every valid range `[date_from, date_to]` (ordinals,
`date_from ≤ date_to`), the 90-day chunk list is made of well-formed
chunks of at most 90 days each, its chunks exactly cover the range
(every day of the range lies in some chunk and chunks never stray
outside the range), consecutive chunks are contiguous (each starts the
day after the previous one ends), and distinct chunks are disjoint
(each ends strictly before the next begins), so there is no gap and no
overlap. -/
theorem chunks_tile_range (dFrom dTo : Nat) (h : dFrom ≤ dTo) :
    (∀ c ∈ make_chunks dFrom dTo 90, c.1 ≤ c.2 ∧ c.2 + 1 ≤ c.1 + 90)
    ∧ (∀ x : Nat, (dFrom ≤ x ∧ x ≤ dTo) ↔
        ∃ c ∈ make_chunks dFrom dTo 90, c.1 ≤ x ∧ x ≤ c.2)
    ∧ (make_chunks dFrom dTo 90).Chain' (fun c d => d.1 = c.2 + 1)
    ∧ (make_chunks dFrom dTo 90).Pairwise (fun c d => c.2 < d.1) := by
  rw [make_chunks_closed dFrom dTo h]
  refine ⟨?_, ?_, ?_, ?_⟩
  · intro c hc
    simp only [List.mem_map, List.mem_range] at hc
    obtain ⟨k, hk, rfl⟩ := hc
    refine ⟨?_, ?_⟩ <;> dsimp only <;> omega
  · intro x
    simp only [List.mem_map, List.mem_range]
    constructor
    · rintro ⟨hx1, hx2⟩
      refine ⟨_, ⟨(x - dFrom) / 90, by omega, rfl⟩, by dsimp only; omega,
        by dsimp only; omega⟩
    · rintro ⟨c, ⟨k, hk, rfl⟩, h1, h2⟩
      dsimp only at h1 h2
      omega
  · rw [List.chain'_map, List.chain'_range_succ]
    intro m hm
    dsimp only
    omega
  · refine List.Pairwise.map _ ?_ (List.pairwise_lt_range _)
    intro a b hab
    dsimp only
    omega

/-- Witness for `chunks_tile_range` at the concrete range `[0, 200]`. -/
theorem chunks_tile_range_witness :
    (∀ c ∈ make_chunks 0 200 90, c.1 ≤ c.2 ∧ c.2 + 1 ≤ c.1 + 90)
    ∧ (∀ x : Nat, (0 ≤ x ∧ x ≤ 200) ↔
        ∃ c ∈ make_chunks 0 200 90, c.1 ≤ x ∧ x ≤ c.2)
    ∧ (make_chunks 0 200 90).Chain' (fun c d => d.1 = c.2 + 1)
    ∧ (make_chunks 0 200 90).Pairwise (fun c d => c.2 < d.1) :=
  chunks_tile_range 0 200 (by decide)

/-- The single-shot condition of `WindsorClient._fetch`:
`span <= _QUARTER_DAYS or date_aggregation in ("month", "year")`,
where `span = (d_to - d_from).days`. -/
def singleShot (agg : Option String) (dFrom dTo : Nat) : Prop :=
  (dTo : Int) - (dFrom : Int) ≤ 90 ∨ agg = some "month" ∨ agg = some "year"

instance (agg : Option String) (dFrom dTo : Nat) :
    Decidable (singleShot agg dFrom dTo) := by
  unfold singleShot; infer_instance

/-- `WindsorClient._fetch`'s fetch plan: the list of `(date_from, date_to)`
ranges for which `_fetch_single` is invoked — the whole range when the
single-shot condition holds, otherwise one per 90-day chunk. -/
def fetchPlan (agg : Option String) (dFrom dTo : Nat) : List (Nat × Nat) :=
  if singleShot agg dFrom dTo then [(dFrom, dTo)] else make_chunks dFrom dTo 90

/-- The chunk list has exactly `⌈days / 90⌉` elements, `days` being the
inclusive length of the range. -/
theorem make_chunks_length (dFrom dTo : Nat) (h : dFrom ≤ dTo) :
    (make_chunks dFrom dTo 90).length = (dTo - dFrom + 1 + 89) / 90 := by
  rw [make_chunks_closed dFrom dTo h]
  simp only [List.length_map, List.length_range]
  omega

/-- C2: if aggregation is month or year, or the requested span is at
most 90 days, `_fetch` issues exactly one single-shot fetch for the
whole range; otherwise it issues one fetch per 90-day tile, i.e.
`⌈(dTo - dFrom + 1) / 90⌉` of them. -/
theorem fetch_plan_counts (agg : Option String) (dFrom dTo : Nat) :
    (singleShot agg dFrom dTo → fetchPlan agg dFrom dTo = [(dFrom, dTo)])
    ∧ (¬ singleShot agg dFrom dTo →
      (fetchPlan agg dFrom dTo).length = (dTo - dFrom + 1 + 89) / 90) := by
  constructor
  · intro hss
    rw [fetchPlan, if_pos hss]
  · intro hss
    rw [fetchPlan, if_neg hss]
    have hspan : ¬ ((dTo : Int) - (dFrom : Int) ≤ 90) := fun hle => hss (Or.inl hle)
    exact make_chunks_length dFrom dTo (by omega)

/-- Witness for `fetch_plan_counts`: a 101-day range at native
granularity is fetched in two 90-day tiles, and the same range with
monthly aggregation in a single shot. -/
theorem fetch_plan_counts_witness :
    (fetchPlan none 0 100).length = 2 ∧ fetchPlan (some "month") 0 100 = [(0, 100)] := by
  constructor
  · have h := (fetch_plan_counts none 0 100).2 (by decide)
    rw [h]
  · exact (fetch_plan_counts (some "month") 0 100).1 (by decide)

/-- A scalar table value: a raw string from the JSON body, a float
(modelled exactly as `ℚ`), a parsed calendar date (`pd.Timestamp` at
day precision), or a missing/NaN/NaT marker. -/
inductive Cell where
  | str (s : String)
  | num (q : ℚ)
  | date (y m d : Nat)
  | null
deriving DecidableEq, Repr

/-- A JSON row object: a mapping from field name to scalar (keys are
unique, in object order). -/
abbrev Row := List (String × Cell)

/-- Split a character list at every occurrence of `sep` (the semantics
of `str.split(sep)` / `String.splitOn` restricted to one-character
separators, written structurally so it evaluates). -/
def splitOnChar (sep : Char) : List Char → List (List Char)
  | [] => [[]]
  | c :: cs =>
    if c = sep then [] :: splitOnChar sep cs
    else
      match splitOnChar sep cs with
      | [] => [[c]]
      | t :: ts => (c :: t) :: ts

/-- Parse a non-empty all-digit character list as a natural number. -/
def digitsToNat : List Char → Option Nat
  | [] => none
  | cs =>
    if cs.all (fun c => c.isDigit)
    then some (cs.foldl (fun n c => n * 10 + (c.toNat - '0'.toNat)) 0) else none

/-- The decimal-literal fragment of `pd.to_numeric`'s string parsing;
the upstream serialises metrics as plain decimal numerals, which is all
the claims exercise. -/
def parseRat (s : String) : Option ℚ :=
  let core : List Char → Option ℚ := fun t =>
    match splitOnChar '.' t with
    | [a] => (digitsToNat a).map (fun n => (n : ℚ))
    | [a, b] =>
      match digitsToNat a, digitsToNat b with
      | some n, some m => some ((n : ℚ) + (m : ℚ) / ((10 : ℚ) ^ b.length))
      | _, _ => none
    | _ => none
  match s.data with
  | '-' :: rest => (core rest).map Neg.neg
  | cs => core cs

/-- `pd.to_numeric(x, errors="coerce").fillna(0)` on one cell: numbers
pass through, parseable strings are parsed, everything else becomes 0. -/
def numCoerce : Cell → ℚ
  | .num q => q
  | .str s => (parseRat s).getD 0
  | .date _ _ _ => 0
  | .null => 0

def isLeapYear (y : Nat) : Bool :=
  y % 4 = 0 && (y % 100 != 0 || y % 400 = 0)

def daysInMonth (y m : Nat) : Nat :=
  if m = 2 then (if isLeapYear y then 29 else 28)
  else if m = 4 || m = 6 || m = 9 || m = 11 then 30
  else 31

/-- The ISO `YYYY-MM-DD` fragment of `pd.to_datetime`'s parsing (the
format the upstream emits); invalid dates are rejected. -/
def parseISODate (s : String) : Option (Nat × Nat × Nat) :=
  match splitOnChar '-' s.data with
  | [y, m, d] =>
    match digitsToNat y, digitsToNat m, digitsToNat d with
    | some yy, some mm, some dd =>
      if 1 ≤ mm && mm ≤ 12 && 1 ≤ dd && dd ≤ daysInMonth yy mm
      then some (yy, mm, dd) else none
    | _, _, _ => none
  | _ => none

/-- `pd.to_datetime(x, errors="coerce")` on one cell: unparseable
values become the NaT marker, the row is retained. -/
def dateCoerce : Cell → Cell
  | .str s =>
    match parseISODate s with
    | some (y, m, d) => .date y m d
    | none => .null
  | .date y m d => .date y m d
  | .num _ => .null
  | .null => .null

/-- A pandas DataFrame, column-major: the row count and the list of
(column name, cells) pairs, every cell list of length `nrows`. -/
structure DataFrame where
  nrows : Nat
  cols : List (String × List Cell)
deriving DecidableEq, Repr

/-- The column names, in order. -/
def colNames (df : DataFrame) : List String := df.cols.map Prod.fst

/-- `df[c]`: the cells of the first column named `c`. -/
def getCol (df : DataFrame) (c : String) : Option (List Cell) :=
  (df.cols.find? (fun p => p.1 == c)).map Prod.snd

/-- `df[c] = f(df[c])`: cell-wise update of the column(s) named `c`. -/
def mapColCells (df : DataFrame) (c : String) (f : Cell → Cell) : DataFrame :=
  ⟨df.nrows, df.cols.map (fun p => if p.1 == c then (p.1, p.2.map f) else p)⟩

/-- `df[c] = vals`: replace the cells of the column(s) named `c`. -/
def setCol (df : DataFrame) (c : String) (vals : List Cell) : DataFrame :=
  ⟨df.nrows, df.cols.map (fun p => if p.1 == c then (p.1, vals) else p)⟩

/-- A row's value for `k`, NaN when the key is absent. -/
def lookupCell (r : Row) (k : String) : Cell := (r.lookup k).getD .null

/-- The union of the rows' keys in first-appearance order: the column
set of `pd.DataFrame(rows)`. -/
def keysUnion (rows : List Row) : List String :=
  rows.foldl (fun acc r => acc ++ (r.map Prod.fst).filter (fun k => !acc.contains k)) []

/-- `pd.DataFrame(rows)` for a non-empty list of row objects. -/
def ofRows (rows : List Row) : DataFrame :=
  ⟨rows.length, (keysUnion rows).map (fun k => (k, rows.map (fun r => lookupCell r k)))⟩

/-- `pd.DataFrame(columns=fields)`: an empty frame with the given columns. -/
def emptyDF (fields : List String) : DataFrame :=
  ⟨0, fields.map (fun f => (f, []))⟩

/-- Lines 114–116: numeric coercion of every catalog column present. -/
def coerceNumeric (numeric : List String) (df : DataFrame) : DataFrame :=
  numeric.foldl
    (fun d col =>
      if d.cols.any (fun p => p.1 == col)
      then mapColCells d col (fun cell => .num (numCoerce cell)) else d)
    df

/-- Lines 117–118: date coercion of a `date` column if present. -/
def coerceDate (df : DataFrame) : DataFrame :=
  if df.cols.any (fun p => p.1 == "date")
  then mapColCells df "date" dateCoerce else df

/-- Lines 108–119 of `_fetch_single`: extract the `data` rows (an
absent key and an empty list are alike), return an empty frame on the
ORIGINAL field list when there are none, otherwise build the frame and
coerce numeric and date columns. -/
def processResponse (numeric fields : List String) (body : List Row) : DataFrame :=
  if body.isEmpty then emptyDF fields
  else coerceDate (coerceNumeric numeric (ofRows body))

/-- One network call's outcome: a connectivity-class failure
(`requests.exceptions.Timeout` / `ConnectionError`, carrying an
identifier so distinct failures are distinguishable) or an HTTP
response with status code and `data` rows. -/
inductive NetResult where
  | conn (eid : Nat)
  | resp (status : Nat) (body : List Row)
deriving DecidableEq, Repr

/-- A deterministic transport: the result of the `n`-th HTTP call of a
logical fetch, as a function of the call sequence number and the
submitted field list. -/
abbrev Transport := Nat → List String → NetResult

/-- Result of the 400-fallback stage: either a connectivity failure
escaped (to be caught by the retry loop), or the surviving field list,
the last response's status and body, the next call sequence number, and
the trace of resubmissions (submitted field list, received status). -/
inductive FbOut where
  | conn (eid c : Nat)
  | done (remaining : List String) (status : Nat) (body : List Row) (c : Nat)
      (trace : List (List String × Nat))
deriving DecidableEq, Repr

/-- Prepend a resubmission record to the trace. -/
def FbOut.consTrace (t : List String × Nat) : FbOut → FbOut
  | .conn e c => .conn e c
  | .done r s b c tr => .done r s b c (t :: tr)

/-- Lines 96–105 of `_fetch_single`: the 400 schema fallback.  For each
optional group in order, drop its fields from `remaining`; if that
removed anything, resubmit once and stop at the first non-400 status. -/
def fallbackLoop (tr : Transport) :
    List (List String) → List String → Nat → List Row → Nat → FbOut
  | [], remaining, st, bd, c => .done remaining st bd c []
  | g :: gs, remaining, st, bd, c =>
    let remaining' := remaining.filter (fun f => !g.contains f)
    if remaining'.length < remaining.length then
      match tr c remaining' with
      | .conn e => .conn e (c + 1)
      | .resp st' bd' =>
        if st' = 400
        then FbOut.consTrace (remaining', st') (fallbackLoop tr gs remaining' st' bd' (c + 1))
        else .done remaining' st' bd' (c + 1) [(remaining', st')]
    else fallbackLoop tr gs remaining' st bd c

/-- The initial request of one attempt plus the 400 fallback (lines
93–105): issue the request with the full field list; on a 400 run the
fallback, otherwise keep the response. -/
def resolve (tr : Transport) (groups : List (List String)) (fields : List String)
    (c : Nat) : FbOut :=
  match tr c fields with
  | .conn e => .conn e (c + 1)
  | .resp st bd =>
    if st = 400 then fallbackLoop tr groups fields st bd (c + 1)
    else .done fields st bd (c + 1) []

/-- Outcome of one attempt of `_fetch_single` (the try-block body):
a caught connectivity failure, an `HTTPError` from
`raise_for_status()` (status in [400, 600)), or a coerced DataFrame. -/
inductive SingleOutcome where
  | connFail (eid c : Nat)
  | httpFail (status c : Nat)
  | success (df : DataFrame) (c : Nat)
deriving DecidableEq, Repr

/-- One attempt of `_fetch_single`: request + fallback, then
`raise_for_status()`, then row extraction and coercion.  Note the
zero-row early return uses the ORIGINAL `fields`. -/
def attemptBody (tr : Transport) (groups : List (List String))
    (numeric fields : List String) (c : Nat) : SingleOutcome :=
  match resolve tr groups fields c with
  | .conn e c' => .connFail e c'
  | .done _rem st bd c' _trace =>
    if 400 ≤ st ∧ st < 600 then .httpFail st c'
    else .success (processResponse numeric fields bd) c'

/-- The final outcome of `_fetch_single`. -/
inductive Outcome where
  | ok (df : DataFrame)
  | errConn (eid : Nat)
  | errHTTP (status : Nat)
deriving DecidableEq, Repr

/-- What a `_fetch_single` call did: its outcome, the `time.sleep`
delays performed between attempts, the number of attempts made, and
the next call sequence number. -/
structure FetchRes where
  out : Outcome
  delays : List Nat
  attempts : Nat
  calls : Nat
deriving DecidableEq, Repr

/-- The retry loop of `_fetch_single` (`for attempt in range(3)`), with
`k + 1` attempts remaining and `aIdx` attempts already made: a
connectivity failure sleeps `3 * (attempt + 1)` and retries while
attempts remain, and is re-raised on the last attempt; `HTTPError` is
never retried.  The fuel-0 case is unreachable from `fetchSingle`. -/
def goAttempt (tr : Transport) (groups : List (List String)) (numeric fields : List String) :
    Nat → Nat → Nat → List Nat → FetchRes
  | 0, aIdx, c, delays => ⟨.errConn 0, delays, aIdx, c⟩
  | k + 1, aIdx, c, delays =>
    match attemptBody tr groups numeric fields c with
    | .success df c' => ⟨.ok df, delays, aIdx + 1, c'⟩
    | .httpFail s c' => ⟨.errHTTP s, delays, aIdx + 1, c'⟩
    | .connFail e c' =>
      if k = 0 then ⟨.errConn e, delays, aIdx + 1, c'⟩
      else goAttempt tr groups numeric fields k (aIdx + 1) c' (delays ++ [3 * (aIdx + 1)])

/-- `WindsorClient._fetch_single` against a transport: up to
`_MAX_RETRIES = 3` attempts starting at call sequence number `c`. -/
def fetchSingle (tr : Transport) (groups : List (List String))
    (numeric fields : List String) (c : Nat) : FetchRes :=
  goAttempt tr groups numeric fields MAX_RETRIES 0 c []

/-- Character walk implementing
`re.sub(r"(?<=[a-z0-9])([A-Z])", r"_\1", name).lower()`:
an underscore is inserted before an uppercase letter preceded by an
ASCII lowercase letter or digit, then everything is lowercased. -/
def camelSnakeGo : Option Char → List Char → List Char
  | _, [] => []
  | prev, ch :: rest =>
    let sep := ch.isUpper &&
      (match prev with
       | some p => p.isLower || p.isDigit
       | none => false)
    (if sep then ['_', ch.toLower] else [ch.toLower]) ++ camelSnakeGo (some ch) rest

/-- `_camel_to_snake`. -/
def camelToSnake (s : String) : String := ⟨camelSnakeGo none s.data⟩

/-- `rename_map = {snake(f): f for f in fields if snake(f) != f}`. -/
def renameMap (fields : List String) : List (String × String) :=
  fields.filterMap (fun f =>
    if camelToSnake f ≠ f then some (camelToSnake f, f) else none)

/-- `df.rename(columns=m)`. -/
def renameCols (m : List (String × String)) (df : DataFrame) : DataFrame :=
  ⟨df.nrows, df.cols.map (fun p => ((m.lookup p.1).getD p.1, p.2))⟩

/-- `vals.max()` of a numeric series (0 on the empty list, which the
caller guards against). -/
def ratMax : List ℚ → ℚ
  | [] => 0
  | q :: qs => qs.foldl max q

/-- The designated rate columns of `GA4Client._normalise_rates`. -/
def RATE_COLS : List String :=
  ["bounceRate", "engagementRate", "bounce_rate", "engagement_rate"]

/-- One iteration of `_normalise_rates`: if the column is present,
coerce it to numbers (NaN → 0) and multiply by 100 exactly when the
series is non-empty and its maximum is ≤ 1. -/
def normOne (df : DataFrame) (col : String) : DataFrame :=
  match getCol df col with
  | none => df
  | some cells =>
    let vals := cells.map numCoerce
    if 0 < vals.length ∧ ratMax vals ≤ 1
    then setCol df col (vals.map (fun q => .num (q * 100)))
    else setCol df col (vals.map .num)

/-- `GA4Client._normalise_rates`. -/
def normaliseRates (df : DataFrame) : DataFrame := RATE_COLS.foldl normOne df

/-- `NUMERIC_FIELDS` (Facebook catalog). -/
def NUMERIC_FIELDS : List String :=
  ["impressions", "clicks", "spend", "ctr", "cpc", "cpm",
   "reach", "frequency",
   "actions_link_click", "actions_landing_page_view",
   "actions_add_to_cart", "actions_initiate_checkout",
   "actions_purchase", "action_values_purchase",
   "actions_lead", "actions_complete_registration",
   "actions_view_content",
   "actions_post_engagement", "actions_post_reaction",
   "actions_comment", "actions_post_save",
   "video_views", "video_p25_watched", "video_p50_watched",
   "video_p75_watched", "video_p100_watched",
   "video_thruplay_watched"]

/-- `_OPTIONAL_GROUPS` (Facebook fallback groups, most expendable first). -/
def OPTIONAL_GROUPS : List (List String) :=
  [["video_p25_watched", "video_p50_watched", "video_p75_watched",
    "video_p100_watched", "video_thruplay_watched"],
   ["video_views"],
   ["actions_post_reaction", "actions_comment", "actions_post_save"],
   ["actions_post_engagement"],
   ["actions_complete_registration", "actions_view_content"],
   ["actions_add_to_cart", "actions_initiate_checkout"],
   ["actions_link_click", "actions_landing_page_view"],
   ["actions_lead"],
   ["quality_ranking", "engagement_rate_ranking", "conversion_rate_ranking"],
   ["promoted_post_full_picture"],
   ["desktop_feed_standard_preview_url"],
   ["image_url", "thumbnail_url"],
   ["body", "bodies", "title", "name"],
   ["campaign_objective"],
   ["publisher_platform", "platform_position"],
   ["age", "gender"],
   ["region"]]

/-- `GA4Client._GA4_NUMERIC_FIELDS`. -/
def GA4_NUMERIC_FIELDS : List String :=
  ["sessions", "users", "newUsers", "bounceRate", "engagementRate",
   "screenPageViews", "averageSessionDuration", "sessionsPerUser",
   "conversions", "transactionRevenue", "eventCount",
   "new_users", "bounce_rate", "engagement_rate",
   "screen_page_views", "average_session_duration", "sessions_per_user",
   "transaction_revenue", "event_count"]

/-- `GA4Client._GA4_OPTIONAL_GROUPS`. -/
def GA4_OPTIONAL_GROUPS : List (List String) :=
  [["eventCount", "event_count"],
   ["sessionsPerUser", "sessions_per_user"],
   ["averageSessionDuration", "average_session_duration"],
   ["screenPageViews", "screen_page_views"],
   ["transactionRevenue", "transaction_revenue"],
   ["conversions"],
   ["engagementRate", "engagement_rate"],
   ["bounceRate", "bounce_rate"],
   ["newUsers", "new_users"],
   ["region"],
   ["country"],
   ["deviceCategory", "device_category"],
   ["pagePath", "page_path"],
   ["medium"],
   ["campaign"],
   ["source"]]

/-- `GA4Client._fetch_single`: the base fetch; on an `HTTPError`, one
retry of the whole request with every field renamed to snake_case and,
on success, result columns renamed back; `_normalise_rates` runs after
every successful fetch.  Delays/attempts/calls accumulate across the
two phases; a connectivity failure propagates unchanged. -/
def ga4FetchSingle (tr : Transport) (fields : List String) (c : Nat) : FetchRes :=
  match fetchSingle tr GA4_OPTIONAL_GROUPS GA4_NUMERIC_FIELDS fields c with
  | ⟨.ok df, d, a, c₁⟩ => ⟨.ok (normaliseRates df), d, a, c₁⟩
  | ⟨.errConn e, d, a, c₁⟩ => ⟨.errConn e, d, a, c₁⟩
  | ⟨.errHTTP _, d, a, c₁⟩ =>
    match fetchSingle tr GA4_OPTIONAL_GROUPS GA4_NUMERIC_FIELDS
        (fields.map camelToSnake) c₁ with
    | ⟨.ok df, d₂, a₂, c₂⟩ =>
      ⟨.ok (normaliseRates (renameCols (renameMap fields) df)), d ++ d₂, a + a₂, c₂⟩
    | ⟨o, d₂, a₂, c₂⟩ => ⟨o, d ++ d₂, a + a₂, c₂⟩

/-- A value filter triple, e.g. `["spend", "gt", 0]`. -/
abbrev ValFilter := String × String × Nat

/-- A query-parameter value: a plain string, or the JSON-encoded filter
list (kept structured; `json.dumps` is injective on it). -/
inductive ParamVal where
  | s (v : String)
  | json (v : List ValFilter)
deriving DecidableEq, Repr

/-- `WindsorClient._do_request`'s query-parameter construction: the
mandatory parameters, then `account_name`, `date_aggregation` and
`filter` only when set (Python truthiness: `None` and empty values are
omitted). -/
def do_request_params (apiKey dFrom dTo : String) (fields : List String)
    (account dateAgg : Option String) (filters : Option (List ValFilter)) :
    List (String × ParamVal) :=
  [("api_key", .s apiKey), ("date_from", .s dFrom), ("date_to", .s dTo),
   ("fields", .s (String.intercalate "," fields))]
  ++ (match account with
      | some a => if a = "" then [] else [("account_name", .s a)]
      | none => [])
  ++ (match dateAgg with
      | some g => if g = "" then [] else [("date_aggregation", .s g)]
      | none => [])
  ++ (match filters with
      | some fs => if fs = [] then [] else [("filter", .json fs)]
      | none => [])

/-- The `["spend", "gt", 0]` filter attached by the Facebook facades. -/
def spendGt0 : ValFilter := ("spend", "gt", 0)

/-- The arguments a facade method passes to `_fetch`. -/
structure FetchArgs where
  fields : List String
  dateAgg : Option String
  filters : Option (List ValFilter)
deriving DecidableEq, Repr

/-- `WindsorClient._PERFORMANCE`. -/
def PERFORMANCE : List String :=
  ["impressions", "clicks", "spend", "ctr", "cpc", "cpm", "reach", "frequency"]

/-- `WindsorClient._FUNNEL`. -/
def FUNNEL : List String :=
  ["actions_link_click", "actions_landing_page_view",
   "actions_add_to_cart", "actions_initiate_checkout",
   "actions_purchase", "action_values_purchase",
   "actions_lead", "actions_complete_registration",
   "actions_view_content"]

/-- `WindsorClient._ENGAGEMENT`. -/
def ENGAGEMENT : List String :=
  ["actions_post_engagement", "actions_post_reaction",
   "actions_comment", "actions_post_save"]

/-- `WindsorClient._VIDEO`. -/
def VIDEO : List String :=
  ["video_views", "video_p25_watched", "video_p50_watched",
   "video_p75_watched", "video_p100_watched", "video_thruplay_watched"]

/-- `WindsorClient._QUALITY`. -/
def QUALITY : List String :=
  ["quality_ranking", "engagement_rate_ranking", "conversion_rate_ranking"]

/-- `WindsorClient._CREATIVE_ASSETS`. -/
def CREATIVE_ASSETS : List String :=
  ["image_url", "thumbnail_url", "promoted_post_full_picture",
   "desktop_feed_standard_preview_url",
   "body", "title", "name", "object_type", "creative_id"]

/-- `get_campaign_data`. -/
def get_campaign_data_args : FetchArgs :=
  ⟨["date", "account_name", "campaign", "campaign_id",
    "campaign_status", "campaign_objective"]
    ++ PERFORMANCE ++ FUNNEL ++ ENGAGEMENT ++ VIDEO,
   some "month", some [spendGt0]⟩

/-- `get_campaign_daily`. -/
def get_campaign_daily_args : FetchArgs :=
  ⟨["date", "campaign", "campaign_objective",
    "impressions", "clicks", "spend", "reach",
    "actions_purchase", "action_values_purchase"],
   none, some [spendGt0]⟩

/-- `get_adset_data`. -/
def get_adset_data_args : FetchArgs :=
  ⟨["date", "account_name", "campaign", "campaign_id", "campaign_objective",
    "adset_name", "adset_id", "adset_status"]
    ++ PERFORMANCE ++ FUNNEL ++ ENGAGEMENT ++ VIDEO,
   some "month", some [spendGt0]⟩

/-- `get_ad_data`. -/
def get_ad_data_args : FetchArgs :=
  ⟨["date", "account_name", "campaign", "campaign_id", "campaign_objective",
    "adset_name", "ad_name", "ad_id", "ad_status"]
    ++ PERFORMANCE ++ FUNNEL ++ ENGAGEMENT ++ VIDEO ++ QUALITY ++ CREATIVE_ASSETS,
   some "month", some [spendGt0]⟩

/-- `get_ad_daily`. -/
def get_ad_daily_args : FetchArgs :=
  ⟨["date", "ad_name", "impressions", "clicks", "spend", "frequency"],
   none, some [spendGt0]⟩

/-- `get_demo_data`. -/
def get_demo_data_args : FetchArgs :=
  ⟨["date", "campaign", "campaign_objective", "age", "gender"]
    ++ PERFORMANCE ++ FUNNEL,
   some "month", some [spendGt0]⟩

/-- `get_placement_data`. -/
def get_placement_data_args : FetchArgs :=
  ⟨["date", "campaign", "campaign_objective",
    "publisher_platform", "platform_position"]
    ++ PERFORMANCE ++ FUNNEL,
   some "month", some [spendGt0]⟩

/-- `get_region_data`. -/
def get_region_data_args : FetchArgs :=
  ⟨["date", "campaign", "campaign_objective", "region"]
    ++ PERFORMANCE ++ FUNNEL,
   some "month", some [spendGt0]⟩

/-- `GA4Client.get_ga4_traffic`. -/
def get_ga4_traffic_args : FetchArgs :=
  ⟨["date", "source", "medium", "campaign",
    "sessions", "users", "newUsers", "bounceRate",
    "engagementRate", "screenPageViews",
    "averageSessionDuration", "sessionsPerUser"],
   some "month", none⟩

/-- `GA4Client.get_ga4_conversions`. -/
def get_ga4_conversions_args : FetchArgs :=
  ⟨["date", "source", "campaign",
    "sessions", "conversions", "transactionRevenue", "users", "eventCount"],
   some "month", none⟩

/-- `GA4Client.get_ga4_device`. -/
def get_ga4_device_args : FetchArgs :=
  ⟨["date", "deviceCategory",
    "sessions", "users", "bounceRate", "engagementRate",
    "conversions", "transactionRevenue", "screenPageViews"],
   some "month", none⟩

/-- `GA4Client.get_ga4_geo`. -/
def get_ga4_geo_args : FetchArgs :=
  ⟨["date", "country", "region",
    "sessions", "users", "conversions", "transactionRevenue", "bounceRate"],
   some "month", none⟩

/-- `GA4Client.get_ga4_pages`. -/
def get_ga4_pages_args : FetchArgs :=
  ⟨["date", "pagePath",
    "screenPageViews", "sessions", "users",
    "bounceRate", "engagementRate", "averageSessionDuration"],
   some "month", none⟩

/-- `GA4Client.get_ga4_daily`. -/
def get_ga4_daily_args : FetchArgs :=
  ⟨["date", "source",
    "sessions", "users", "conversions",
    "transactionRevenue", "bounceRate", "engagementRate"],
   none, none⟩

/-! ### DataFrame lemmas -/

/-- The column-update pattern shared by `mapColCells` and `setCol`. -/
def updEntry (c : String) (F : List Cell → List Cell) (p : String × List Cell) :
    String × List Cell :=
  if p.1 == c then (p.1, F p.2) else p

lemma updEntry_fst (c : String) (F : List Cell → List Cell) (p : String × List Cell) :
    (updEntry c F p).1 = p.1 := by
  rw [updEntry]
  split <;> rfl

lemma mapColCells_eq_updEntry (df : DataFrame) (c : String) (f : Cell → Cell) :
    mapColCells df c f = ⟨df.nrows, df.cols.map (updEntry c (List.map f))⟩ := rfl

lemma setCol_eq_updEntry (df : DataFrame) (c : String) (vals : List Cell) :
    setCol df c vals = ⟨df.nrows, df.cols.map (updEntry c (fun _ => vals))⟩ := rfl

lemma find?_upd (cols : List (String × List Cell)) (c x : String)
    (F : List Cell → List Cell) :
    (cols.map (updEntry c F)).find? (fun p => p.1 == x)
      = (cols.find? (fun p => p.1 == x)).map (updEntry c F) := by
  rw [List.find?_map]
  have hfun : ((fun p : String × List Cell => p.1 == x) ∘ updEntry c F)
      = (fun p : String × List Cell => p.1 == x) := by
    funext p
    show ((updEntry c F p).1 == x) = (p.1 == x)
    rw [updEntry_fst]
  rw [hfun]

lemma getCol_upd_self (df : DataFrame) (c : String) (F : List Cell → List Cell) :
    getCol ⟨df.nrows, df.cols.map (updEntry c F)⟩ c = (getCol df c).map F := by
  show ((df.cols.map _).find? _).map Prod.snd = ((df.cols.find? _).map Prod.snd).map F
  rw [find?_upd]
  cases hfind : df.cols.find? (fun p => p.1 == c) with
  | none => rfl
  | some p =>
    have hp := List.find?_some hfind
    have hp1 : p.1 = c := by simpa using hp
    simp [updEntry, hp1]

lemma getCol_upd_ne (df : DataFrame) (c x : String) (F : List Cell → List Cell)
    (h : x ≠ c) :
    getCol ⟨df.nrows, df.cols.map (updEntry c F)⟩ x = getCol df x := by
  show ((df.cols.map _).find? _).map Prod.snd = (df.cols.find? _).map Prod.snd
  rw [find?_upd]
  cases hfind : df.cols.find? (fun p => p.1 == x) with
  | none => rfl
  | some p =>
    have hp := List.find?_some hfind
    have hp1 : p.1 = x := by simpa using hp
    have hpc : (p.1 == c) = false := by simp [hp1, h]
    simp [updEntry, hpc]

lemma getCol_mapColCells_self (df : DataFrame) (c : String) (f : Cell → Cell) :
    getCol (mapColCells df c f) c = (getCol df c).map (List.map f) := by
  rw [mapColCells_eq_updEntry]
  exact getCol_upd_self df c (List.map f)

lemma getCol_mapColCells_ne (df : DataFrame) (c x : String) (f : Cell → Cell)
    (h : x ≠ c) : getCol (mapColCells df c f) x = getCol df x := by
  rw [mapColCells_eq_updEntry]
  exact getCol_upd_ne df c x (List.map f) h

lemma getCol_setCol_self (df : DataFrame) (c : String) (vals : List Cell) :
    getCol (setCol df c vals) c = (getCol df c).map (fun _ => vals) := by
  rw [setCol_eq_updEntry]
  exact getCol_upd_self df c (fun _ => vals)

lemma getCol_setCol_ne (df : DataFrame) (c x : String) (vals : List Cell)
    (h : x ≠ c) : getCol (setCol df c vals) x = getCol df x := by
  rw [setCol_eq_updEntry]
  exact getCol_upd_ne df c x (fun _ => vals) h

lemma any_eq_getCol_isSome (df : DataFrame) (c : String) :
    df.cols.any (fun p => p.1 == c) = (getCol df c).isSome := by
  show df.cols.any _ = ((df.cols.find? _).map Prod.snd).isSome
  cases hfind : df.cols.find? (fun p => p.1 == c) with
  | none =>
    have hall := List.find?_eq_none.mp hfind
    simp only [Option.map_none', Option.isSome_none]
    rw [List.any_eq_false]
    exact hall
  | some p =>
    simp only [Option.map_some', Option.isSome_some]
    rw [List.any_eq_true]
    have hp := List.find?_some hfind
    exact ⟨p, List.mem_of_find?_eq_some hfind, hp⟩

lemma getCol_none_of_not_any (df : DataFrame) (c : String)
    (h : ¬ df.cols.any (fun p => p.1 == c) = true) : getCol df c = none := by
  rw [any_eq_getCol_isSome] at h
  cases hg : getCol df c
  · rfl
  · rw [hg] at h
    simp at h

lemma mapColCells_nrows (df : DataFrame) (c : String) (f : Cell → Cell) :
    (mapColCells df c f).nrows = df.nrows := rfl

lemma setCol_nrows (df : DataFrame) (c : String) (vals : List Cell) :
    (setCol df c vals).nrows = df.nrows := rfl

lemma colNames_upd (df : DataFrame) (c : String) (F : List Cell → List Cell) :
    colNames ⟨df.nrows, df.cols.map (updEntry c F)⟩ = colNames df := by
  show (df.cols.map _).map Prod.fst = df.cols.map Prod.fst
  rw [List.map_map]
  apply List.map_congr_left
  intro p _
  exact updEntry_fst c F p

lemma colNames_mapColCells (df : DataFrame) (c : String) (f : Cell → Cell) :
    colNames (mapColCells df c f) = colNames df := by
  rw [mapColCells_eq_updEntry]
  exact colNames_upd df c (List.map f)

lemma colNames_setCol (df : DataFrame) (c : String) (vals : List Cell) :
    colNames (setCol df c vals) = colNames df := by
  rw [setCol_eq_updEntry]
  exact colNames_upd df c (fun _ => vals)

lemma coerceNumeric_nil (df : DataFrame) : coerceNumeric [] df = df := rfl

lemma coerceNumeric_cons (a : String) (rest : List String) (df : DataFrame) :
    coerceNumeric (a :: rest) df =
      coerceNumeric rest
        (if df.cols.any (fun p => p.1 == a)
         then mapColCells df a (fun cell => .num (numCoerce cell)) else df) := rfl

lemma coerceNumeric_nrows (numeric : List String) (df : DataFrame) :
    (coerceNumeric numeric df).nrows = df.nrows := by
  induction numeric generalizing df with
  | nil => rfl
  | cons a rest ih =>
    rw [coerceNumeric_cons, ih]
    split <;> rfl

lemma colNames_coerceNumeric (numeric : List String) (df : DataFrame) :
    colNames (coerceNumeric numeric df) = colNames df := by
  induction numeric generalizing df with
  | nil => rfl
  | cons a rest ih =>
    rw [coerceNumeric_cons, ih]
    split
    · exact colNames_mapColCells df a _
    · rfl

lemma coerceDate_nrows (df : DataFrame) : (coerceDate df).nrows = df.nrows := by
  rw [coerceDate]
  split <;> rfl

lemma colNames_coerceDate (df : DataFrame) : colNames (coerceDate df) = colNames df := by
  rw [coerceDate]
  split
  · exact colNames_mapColCells df "date" dateCoerce
  · rfl

lemma getCol_coerceNumeric (numeric : List String) (df : DataFrame) (col : String)
    (hnd : numeric.Nodup) :
    getCol (coerceNumeric numeric df) col =
      if col ∈ numeric
      then (getCol df col).map (List.map (fun cell => Cell.num (numCoerce cell)))
      else getCol df col := by
  induction numeric generalizing df with
  | nil => simp [coerceNumeric_nil]
  | cons a rest ih =>
    rw [coerceNumeric_cons]
    rcases List.nodup_cons.mp hnd with ⟨hna, hrest⟩
    by_cases hax : col = a
    · subst hax
      rw [ih _ hrest, if_neg hna, if_pos (List.mem_cons_self _ _)]
      split
      · exact getCol_mapColCells_self df col _
      · rw [getCol_none_of_not_any df col (by assumption)]
        rfl
    · rw [ih _ hrest]
      have hgc : getCol (if df.cols.any (fun p => p.1 == a)
          then mapColCells df a (fun cell => Cell.num (numCoerce cell)) else df) col
            = getCol df col := by
        split
        · exact getCol_mapColCells_ne df a col _ hax
        · rfl
      rw [hgc]
      simp [List.mem_cons, hax]

lemma getCol_coerceDate_date (df : DataFrame) :
    getCol (coerceDate df) "date" = (getCol df "date").map (List.map dateCoerce) := by
  rw [coerceDate]
  split
  · exact getCol_mapColCells_self df "date" dateCoerce
  · rw [getCol_none_of_not_any df "date" (by assumption)]
    rfl

lemma getCol_coerceDate_ne (df : DataFrame) (col : String) (h : col ≠ "date") :
    getCol (coerceDate df) col = getCol df col := by
  rw [coerceDate]
  split
  · exact getCol_mapColCells_ne df "date" col _ h
  · rfl

lemma getCol_ofRows_eq (rows : List Row) (col : String) (cells : List Cell)
    (h : getCol (ofRows rows) col = some cells) :
    cells = rows.map (fun r => lookupCell r col) := by
  rcases Option.map_eq_some'.mp h with ⟨p, hfind, hsnd⟩
  have hpred := List.find?_some hfind
  have hmem := List.mem_of_find?_eq_some hfind
  rcases List.mem_map.mp hmem with ⟨k, _, hk⟩
  have hkc : k = col := by
    have hp1 : p.1 = col := by simpa using hpred
    rw [← hk] at hp1
    simpa using hp1
  rw [← hsnd, ← hk, hkc]

lemma getCol_emptyDF_eq (fields : List String) (col : String) (cells : List Cell)
    (h : getCol (emptyDF fields) col = some cells) : cells = [] := by
  rcases Option.map_eq_some'.mp h with ⟨p, hfind, hsnd⟩
  have hmem := List.mem_of_find?_eq_some hfind
  rcases List.mem_map.mp hmem with ⟨k, _, hk⟩
  rw [← hsnd, ← hk]

lemma processResponse_nrows (numeric fields : List String) (body : List Row) :
    (processResponse numeric fields body).nrows = body.length := by
  rw [processResponse]
  split
  · have hb : body = [] := by
      rw [← List.isEmpty_iff]
      assumption
    subst hb
    rfl
  · rw [coerceDate_nrows, coerceNumeric_nrows]
    rfl

lemma getCol_isSome_of_mem_colNames (df : DataFrame) (col : String)
    (h : col ∈ colNames df) : ∃ cells, getCol df col = some cells := by
  rcases List.mem_map.mp h with ⟨p, hp, hp1⟩
  have hfind : (df.cols.find? (fun q => q.1 == col)).isSome := by
    rw [List.find?_isSome]
    exact ⟨p, hp, by simp [hp1]⟩
  rcases Option.isSome_iff_exists.mp hfind with ⟨q, hq⟩
  refine ⟨q.2, ?_⟩
  unfold getCol
  rw [hq]
  rfl

lemma colNames_ofRows (rows : List Row) : colNames (ofRows rows) = keysUnion rows := by
  show ((keysUnion rows).map _).map Prod.fst = keysUnion rows
  rw [List.map_map]
  conv_rhs => rw [← List.map_id (keysUnion rows)]
  apply List.map_congr_left
  intro k _
  rfl

lemma colNames_emptyDF (fields : List String) : colNames (emptyDF fields) = fields := by
  show (fields.map _).map Prod.fst = fields
  rw [List.map_map]
  conv_rhs => rw [← List.map_id fields]
  apply List.map_congr_left
  intro k _
  rfl

lemma colNames_processResponse_of_ne (numeric fields : List String) (body : List Row)
    (hbody : body ≠ []) :
    colNames (processResponse numeric fields body) = keysUnion body := by
  rw [processResponse, if_neg (by simp [hbody]), colNames_coerceDate,
    colNames_coerceNumeric, colNames_ofRows]

/-- C8: for every successful fetch, rows are retained one-to-one, every
column of the platform's numeric catalog present in the result is
coerced cell-wise to a float (`pd.to_numeric(..., errors="coerce").fillna(0)`:
missing or unparseable values become 0), and a `date` column, if
present, is coerced cell-wise to a calendar date (unparseable values
become the null marker, rows kept). -/
theorem response_coercion (numeric fields : List String) (body : List Row)
    (hdate : "date" ∉ numeric) (hnd : numeric.Nodup) :
    (processResponse numeric fields body).nrows = body.length
    ∧ (∀ col ∈ numeric, ∀ cells,
        getCol (processResponse numeric fields body) col = some cells →
        cells = body.map (fun r => Cell.num (numCoerce (lookupCell r col))))
    ∧ (∀ cells, getCol (processResponse numeric fields body) "date" = some cells →
        cells = body.map (fun r => dateCoerce (lookupCell r "date"))) := by
  refine ⟨processResponse_nrows numeric fields body, ?_, ?_⟩
  · intro col hcol cells hget
    rw [processResponse] at hget
    split at hget
    · have hb : body = [] := by
        rw [← List.isEmpty_iff]
        assumption
      subst hb
      simp [getCol_emptyDF_eq fields col cells hget]
    · have hne : col ≠ "date" := fun hcd => hdate (hcd ▸ hcol)
      rw [getCol_coerceDate_ne _ col hne, getCol_coerceNumeric _ _ _ hnd,
        if_pos hcol] at hget
      rcases Option.map_eq_some'.mp hget with ⟨cells₀, hget₀, hmap⟩
      have h₀ := getCol_ofRows_eq body col cells₀ hget₀
      rw [← hmap, h₀, List.map_map]
      rfl
  · intro cells hget
    rw [processResponse] at hget
    split at hget
    · have hb : body = [] := by
        rw [← List.isEmpty_iff]
        assumption
      subst hb
      simp [getCol_emptyDF_eq fields "date" cells hget]
    · rw [getCol_coerceDate_date, getCol_coerceNumeric _ _ _ hnd,
        if_neg hdate] at hget
      rcases Option.map_eq_some'.mp hget with ⟨cells₀, hget₀, hmap⟩
      have h₀ := getCol_ofRows_eq body "date" cells₀ hget₀
      rw [← hmap, h₀, List.map_map]
      rfl

/-- Witness for `response_coercion`: the spec's round-trip scenario — a
one-row response with date "2024-01-01", spend "123.45", clicks "10"
yields one row with spend 123.45, clicks 10.0, date 2024-01-01. -/
theorem response_coercion_witness :
    (processResponse NUMERIC_FIELDS ["date", "spend", "clicks"]
      [[("date", Cell.str "2024-01-01"), ("spend", Cell.str "123.45"),
        ("clicks", Cell.str "10")]]).nrows = 1
    ∧ getCol (processResponse NUMERIC_FIELDS ["date", "spend", "clicks"]
      [[("date", Cell.str "2024-01-01"), ("spend", Cell.str "123.45"),
        ("clicks", Cell.str "10")]]) "spend" = some [Cell.num (2469/20)]
    ∧ getCol (processResponse NUMERIC_FIELDS ["date", "spend", "clicks"]
      [[("date", Cell.str "2024-01-01"), ("spend", Cell.str "123.45"),
        ("clicks", Cell.str "10")]]) "clicks" = some [Cell.num 10]
    ∧ getCol (processResponse NUMERIC_FIELDS ["date", "spend", "clicks"]
      [[("date", Cell.str "2024-01-01"), ("spend", Cell.str "123.45"),
        ("clicks", Cell.str "10")]]) "date" = some [Cell.date 2024 1 1] := by
  have h := response_coercion NUMERIC_FIELDS ["date", "spend", "clicks"]
      [[("date", Cell.str "2024-01-01"), ("spend", Cell.str "123.45"),
        ("clicks", Cell.str "10")]] (by decide) (by decide)
  have hcols : colNames (processResponse NUMERIC_FIELDS ["date", "spend", "clicks"]
      [[("date", Cell.str "2024-01-01"), ("spend", Cell.str "123.45"),
        ("clicks", Cell.str "10")]]) = ["date", "spend", "clicks"] := by
    rw [colNames_processResponse_of_ne _ _ _ (by simp)]
    simp [keysUnion]
  refine ⟨h.1, ?_, ?_, ?_⟩
  · rcases getCol_isSome_of_mem_colNames _ "spend" (by rw [hcols]; simp) with ⟨cells, hg⟩
    have := h.2.1 "spend" (by decide) cells hg
    rw [hg, this]
    simp [lookupCell, List.lookup, numCoerce, parseRat, splitOnChar, digitsToNat]
    norm_num
  · rcases getCol_isSome_of_mem_colNames _ "clicks" (by rw [hcols]; simp) with ⟨cells, hg⟩
    have := h.2.1 "clicks" (by decide) cells hg
    rw [hg, this]
    simp [lookupCell, List.lookup, numCoerce, parseRat, splitOnChar, digitsToNat]
  · rcases getCol_isSome_of_mem_colNames _ "date" (by rw [hcols]; simp) with ⟨cells, hg⟩
    have := h.2.2 cells hg
    rw [hg, this]
    simp [lookupCell, List.lookup, dateCoerce, parseISODate, splitOnChar, digitsToNat,
      daysInMonth]

lemma attemptBody_done (tr : Transport) (groups : List (List String))
    (numeric fields : List String) (c : Nat) (rem : List String) (st : Nat)
    (bd : List Row) (c₂ : Nat) (trace : List (List String × Nat))
    (hres : resolve tr groups fields c = .done rem st bd c₂ trace) :
    attemptBody tr groups numeric fields c =
      if 400 ≤ st ∧ st < 600 then .httpFail st c₂
      else .success (processResponse numeric fields bd) c₂ := by
  unfold attemptBody
  rw [hres]

/-- C9: a 2xx response whose `data` is empty (or absent) succeeds with
an empty table whose columns are exactly the originally requested
fields; conversely, a successful fetch with zero rows can only arise
from an accepted (non-error) response with no data — an empty result
never masks an HTTP failure. -/
theorem empty_result (tr : Transport) (groups : List (List String))
    (numeric fields : List String) (c : Nat) (rem : List String) (st : Nat)
    (bd : List Row) (c₂ : Nat) (trace : List (List String × Nat))
    (hres : resolve tr groups fields c = .done rem st bd c₂ trace) :
    ((200 ≤ st ∧ st < 300) → bd = [] →
      attemptBody tr groups numeric fields c = .success (emptyDF fields) c₂
      ∧ colNames (emptyDF fields) = fields ∧ (emptyDF fields).nrows = 0)
    ∧ (∀ df c₃, attemptBody tr groups numeric fields c = .success df c₃ →
        df.nrows = 0 → ¬ (400 ≤ st ∧ st < 600) ∧ bd = []) := by
  have hatt := attemptBody_done tr groups numeric fields c rem st bd c₂ trace hres
  constructor
  · rintro ⟨h2, h3⟩ hbd
    rw [hatt, if_neg (by omega), hbd]
    exact ⟨rfl, colNames_emptyDF fields, rfl⟩
  · intro df c₃ hsucc hn
    rw [hatt] at hsucc
    by_cases hif : 400 ≤ st ∧ st < 600
    · rw [if_pos hif] at hsucc
      exact absurd hsucc (by simp)
    · rw [if_neg hif] at hsucc
      simp only [SingleOutcome.success.injEq] at hsucc
      obtain ⟨hdf, _⟩ := hsucc
      rw [← hdf, processResponse_nrows] at hn
      exact ⟨hif, List.length_eq_zero.mp hn⟩

/-- Witness for `empty_result`: a transport answering 200 with
`{"data": []}` yields a successful empty table carrying the requested
columns. -/
theorem empty_result_witness :
    attemptBody (fun _ _ => NetResult.resp 200 []) OPTIONAL_GROUPS NUMERIC_FIELDS
      ["date", "spend"] 0 = .success (emptyDF ["date", "spend"]) 1
    ∧ colNames (emptyDF ["date", "spend"]) = ["date", "spend"]
    ∧ (emptyDF ["date", "spend"]).nrows = 0 :=
  (empty_result (fun _ _ => NetResult.resp 200 []) OPTIONAL_GROUPS NUMERIC_FIELDS
    ["date", "spend"] 0 ["date", "spend"] 200 [] 1 [] rfl).1 (by omega) rfl

/-- C10: every Facebook facade fetch method attaches the value filter
`["spend", "gt", 0]` to its request, the GA4 facade methods attach no
filter, and whenever that filter list is passed down, `_do_request`
includes it in the outgoing query parameters. -/
theorem facade_spend_filters :
    (get_campaign_data_args.filters = some [spendGt0]
     ∧ get_campaign_daily_args.filters = some [spendGt0]
     ∧ get_adset_data_args.filters = some [spendGt0]
     ∧ get_ad_data_args.filters = some [spendGt0]
     ∧ get_ad_daily_args.filters = some [spendGt0]
     ∧ get_demo_data_args.filters = some [spendGt0]
     ∧ get_placement_data_args.filters = some [spendGt0]
     ∧ get_region_data_args.filters = some [spendGt0])
    ∧ (get_ga4_traffic_args.filters = none
     ∧ get_ga4_conversions_args.filters = none
     ∧ get_ga4_device_args.filters = none
     ∧ get_ga4_geo_args.filters = none
     ∧ get_ga4_pages_args.filters = none
     ∧ get_ga4_daily_args.filters = none)
    ∧ (∀ apiKey dFrom dTo fields account dateAgg,
        ("filter", ParamVal.json [spendGt0]) ∈
          do_request_params apiKey dFrom dTo fields account dateAgg
            (some [spendGt0])) := by
  refine ⟨⟨rfl, rfl, rfl, rfl, rfl, rfl, rfl, rfl⟩, ⟨rfl, rfl, rfl, rfl, rfl, rfl⟩, ?_⟩
  intro apiKey dFrom dTo fields account dateAgg
  simp [do_request_params]

lemma fetchSingle_eq (tr : Transport) (groups : List (List String))
    (numeric fields : List String) (c : Nat) :
    fetchSingle tr groups numeric fields c = goAttempt tr groups numeric fields 3 0 c [] := rfl

lemma goAttempt_3 (tr : Transport) (groups : List (List String))
    (numeric fields : List String) (a c : Nat) (d : List Nat) :
    goAttempt tr groups numeric fields 3 a c d =
      match attemptBody tr groups numeric fields c with
      | .success df c' => ⟨.ok df, d, a + 1, c'⟩
      | .httpFail s c' => ⟨.errHTTP s, d, a + 1, c'⟩
      | .connFail _ c' =>
        goAttempt tr groups numeric fields 2 (a + 1) c'
          (d ++ [3 * (a + 1)]) := by
  show goAttempt tr groups numeric fields (2 + 1) a c d = _
  rw [goAttempt]
  rcases attemptBody tr groups numeric fields c with ⟨e, c'⟩ | ⟨s, c'⟩ | ⟨df, c'⟩ <;> rfl

lemma goAttempt_2 (tr : Transport) (groups : List (List String))
    (numeric fields : List String) (a c : Nat) (d : List Nat) :
    goAttempt tr groups numeric fields 2 a c d =
      match attemptBody tr groups numeric fields c with
      | .success df c' => ⟨.ok df, d, a + 1, c'⟩
      | .httpFail s c' => ⟨.errHTTP s, d, a + 1, c'⟩
      | .connFail _ c' =>
        goAttempt tr groups numeric fields 1 (a + 1) c'
          (d ++ [3 * (a + 1)]) := by
  show goAttempt tr groups numeric fields (1 + 1) a c d = _
  rw [goAttempt]
  rcases attemptBody tr groups numeric fields c with ⟨e, c'⟩ | ⟨s, c'⟩ | ⟨df, c'⟩ <;> rfl

lemma goAttempt_1 (tr : Transport) (groups : List (List String))
    (numeric fields : List String) (a c : Nat) (d : List Nat) :
    goAttempt tr groups numeric fields 1 a c d =
      match attemptBody tr groups numeric fields c with
      | .success df c' => ⟨.ok df, d, a + 1, c'⟩
      | .httpFail s c' => ⟨.errHTTP s, d, a + 1, c'⟩
      | .connFail e c' => ⟨.errConn e, d, a + 1, c'⟩ := by
  show goAttempt tr groups numeric fields (0 + 1) a c d = _
  rw [goAttempt]
  rcases attemptBody tr groups numeric fields c with ⟨e, c'⟩ | ⟨s, c'⟩ | ⟨df, c'⟩ <;> rfl

/-- C5: `_fetch_single` makes at most 3 attempts; only connectivity
failures are retried (an HTTP error aborts at once, with no delay); the
inter-attempt delays are 3 then 6 time units (non-decreasing); after
three connectivity failures the LAST one is re-raised; two connectivity
failures followed by a good attempt succeed on the third attempt. -/
theorem retry_policy (tr : Transport) (groups : List (List String))
    (numeric fields : List String) (c : Nat) :
    (fetchSingle tr groups numeric fields c).attempts ≤ 3
    ∧ (fetchSingle tr groups numeric fields c).delays
        = (List.range ((fetchSingle tr groups numeric fields c).attempts - 1)).map
            (fun i => 3 * (i + 1))
    ∧ (∀ s c₁, attemptBody tr groups numeric fields c = .httpFail s c₁ →
        fetchSingle tr groups numeric fields c = ⟨.errHTTP s, [], 1, c₁⟩)
    ∧ (∀ e₁ c₁ e₂ c₂ e₃ c₃,
        attemptBody tr groups numeric fields c = .connFail e₁ c₁ →
        attemptBody tr groups numeric fields c₁ = .connFail e₂ c₂ →
        attemptBody tr groups numeric fields c₂ = .connFail e₃ c₃ →
        fetchSingle tr groups numeric fields c = ⟨.errConn e₃, [3, 6], 3, c₃⟩)
    ∧ (∀ e₁ c₁ e₂ c₂ df c₃,
        attemptBody tr groups numeric fields c = .connFail e₁ c₁ →
        attemptBody tr groups numeric fields c₁ = .connFail e₂ c₂ →
        attemptBody tr groups numeric fields c₂ = .success df c₃ →
        fetchSingle tr groups numeric fields c = ⟨.ok df, [3, 6], 3, c₃⟩) := by
  rcases h1 : attemptBody tr groups numeric fields c with ⟨e₁, c₁⟩ | ⟨s₁, c₁⟩ | ⟨df₁, c₁⟩
  rotate_left
  · -- first attempt raises HTTPError: no retry
    have hR : fetchSingle tr groups numeric fields c = ⟨.errHTTP s₁, [], 1, c₁⟩ := by
      rw [fetchSingle_eq, goAttempt_3, h1]
    rw [hR]
    refine ⟨?_, ?_, ?_, ?_, ?_⟩
    · show (1 : Nat) ≤ 3
      omega
    · show ([] : List Nat) = (List.range (1 - 1)).map (fun i => 3 * (i + 1))
      decide
    · intro s c' ha
      injection ha with hs hc
      rw [hs, hc]
    · intro e₁ c₁' e₂ c₂ e₃ c₃ ha _ _
      exact absurd ha (by simp)
    · intro e₁ c₁' e₂ c₂ df c₃ ha _ _
      exact absurd ha (by simp)
  · -- first attempt succeeds
    have hR : fetchSingle tr groups numeric fields c = ⟨.ok df₁, [], 1, c₁⟩ := by
      rw [fetchSingle_eq, goAttempt_3, h1]
    rw [hR]
    refine ⟨?_, ?_, ?_, ?_, ?_⟩
    · show (1 : Nat) ≤ 3
      omega
    · show ([] : List Nat) = (List.range (1 - 1)).map (fun i => 3 * (i + 1))
      decide
    · intro s c' ha
      exact absurd ha (by simp)
    · intro e₁ c₁' e₂ c₂ e₃ c₃ ha _ _
      exact absurd ha (by simp)
    · intro e₁ c₁' e₂ c₂ df c₃ ha _ _
      exact absurd ha (by simp)
  · -- first attempt: connectivity failure, retried after 3 units
    rcases h2 : attemptBody tr groups numeric fields c₁ with ⟨e₂, c₂⟩ | ⟨s₂, c₂⟩ | ⟨df₂, c₂⟩
    rotate_left
    · have hR : fetchSingle tr groups numeric fields c = ⟨.errHTTP s₂, [3], 2, c₂⟩ := by
        rw [fetchSingle_eq, goAttempt_3, h1]
        simp only [List.nil_append]
        rw [goAttempt_2, h2]
      rw [hR]
      refine ⟨?_, ?_, ?_, ?_, ?_⟩
      · show (2 : Nat) ≤ 3
        omega
      · show [3] = (List.range (2 - 1)).map (fun i => 3 * (i + 1))
        decide
      · intro s c' ha
        exact absurd ha (by simp)
      · intro e₁' c₁' e₂' c₂' e₃' c₃' ha hb _
        injection ha with he hc
        rw [← hc] at hb
        rw [h2] at hb
        exact absurd hb (by simp)
      · intro e₁' c₁' e₂' c₂' df' c₃' ha hb _
        injection ha with he hc
        rw [← hc] at hb
        rw [h2] at hb
        exact absurd hb (by simp)
    · have hR : fetchSingle tr groups numeric fields c = ⟨.ok df₂, [3], 2, c₂⟩ := by
        rw [fetchSingle_eq, goAttempt_3, h1]
        simp only [List.nil_append]
        rw [goAttempt_2, h2]
      rw [hR]
      refine ⟨?_, ?_, ?_, ?_, ?_⟩
      · show (2 : Nat) ≤ 3
        omega
      · show [3] = (List.range (2 - 1)).map (fun i => 3 * (i + 1))
        decide
      · intro s c' ha
        exact absurd ha (by simp)
      · intro e₁' c₁' e₂' c₂' e₃' c₃' ha hb _
        injection ha with he hc
        rw [← hc] at hb
        rw [h2] at hb
        exact absurd hb (by simp)
      · intro e₁' c₁' e₂' c₂' df' c₃' ha hb _
        injection ha with he hc
        rw [← hc] at hb
        rw [h2] at hb
        exact absurd hb (by simp)
    · -- two connectivity failures: delays 3 then 6, third attempt decides
      rcases h3 : attemptBody tr groups numeric fields c₂ with ⟨e₃, c₃⟩ | ⟨s₃, c₃⟩ | ⟨df₃, c₃⟩
      rotate_left
      · have hR : fetchSingle tr groups numeric fields c = ⟨.errHTTP s₃, [3, 6], 3, c₃⟩ := by
          rw [fetchSingle_eq, goAttempt_3, h1]
          simp only [List.nil_append]
          rw [goAttempt_2, h2]
          simp only [List.cons_append, List.nil_append]
          rw [goAttempt_1, h3]
        rw [hR]
        refine ⟨?_, ?_, ?_, ?_, ?_⟩
        · show (3 : Nat) ≤ 3
          omega
        · show [3, 6] = (List.range (3 - 1)).map (fun i => 3 * (i + 1))
          decide
        · intro s c' ha
          exact absurd ha (by simp)
        · intro e₁' c₁' e₂' c₂' e₃' c₃' ha hb hcc
          injection ha with he hc
          rw [← hc] at hb
          rw [h2] at hb
          injection hb with he2 hc2
          rw [← hc2] at hcc
          rw [h3] at hcc
          exact absurd hcc (by simp)
        · intro e₁' c₁' e₂' c₂' df' c₃' ha hb hcc
          injection ha with he hc
          rw [← hc] at hb
          rw [h2] at hb
          injection hb with he2 hc2
          rw [← hc2] at hcc
          rw [h3] at hcc
          exact absurd hcc (by simp)
      · have hR : fetchSingle tr groups numeric fields c = ⟨.ok df₃, [3, 6], 3, c₃⟩ := by
          rw [fetchSingle_eq, goAttempt_3, h1]
          simp only [List.nil_append]
          rw [goAttempt_2, h2]
          simp only [List.cons_append, List.nil_append]
          rw [goAttempt_1, h3]
        rw [hR]
        refine ⟨?_, ?_, ?_, ?_, ?_⟩
        · show (3 : Nat) ≤ 3
          omega
        · show [3, 6] = (List.range (3 - 1)).map (fun i => 3 * (i + 1))
          decide
        · intro s c' ha
          exact absurd ha (by simp)
        · intro e₁' c₁' e₂' c₂' e₃' c₃' ha hb hcc
          injection ha with he hc
          rw [← hc] at hb
          rw [h2] at hb
          injection hb with he2 hc2
          rw [← hc2] at hcc
          rw [h3] at hcc
          exact absurd hcc (by simp)
        · intro e₁' c₁' e₂' c₂' df' c₃' ha hb hcc
          injection ha with he hc
          rw [← hc] at hb
          rw [h2] at hb
          injection hb with he2 hc2
          rw [← hc2] at hcc
          rw [h3] at hcc
          injection hcc with hdf hc3
          rw [hdf, hc3]
      · -- three connectivity failures: the last one is re-raised
        have hR : fetchSingle tr groups numeric fields c = ⟨.errConn e₃, [3, 6], 3, c₃⟩ := by
          rw [fetchSingle_eq, goAttempt_3, h1]
          simp only [List.nil_append]
          rw [goAttempt_2, h2]
          simp only [List.cons_append, List.nil_append]
          rw [goAttempt_1, h3]
        rw [hR]
        refine ⟨?_, ?_, ?_, ?_, ?_⟩
        · show (3 : Nat) ≤ 3
          omega
        · show [3, 6] = (List.range (3 - 1)).map (fun i => 3 * (i + 1))
          decide
        · intro s c' ha
          exact absurd ha (by simp)
        · intro e₁' c₁' e₂' c₂' e₃' c₃' ha hb hcc
          injection ha with he hc
          rw [← hc] at hb
          rw [h2] at hb
          injection hb with he2 hc2
          rw [← hc2] at hcc
          rw [h3] at hcc
          injection hcc with he3 hc3
          rw [he3, hc3]
        · intro e₁' c₁' e₂' c₂' df' c₃' ha hb hcc
          injection ha with he hc
          rw [← hc] at hb
          rw [h2] at hb
          injection hb with he2 hc2
          rw [← hc2] at hcc
          rw [h3] at hcc
          exact absurd hcc (by simp)

/-- Witness for `retry_policy`: a transport failing with connectivity
errors on calls 0 and 1 and answering 200 on call 2 — the fetch
succeeds on the third attempt after delays 3 and 6. -/
theorem retry_policy_witness :
    fetchSingle
      (fun c _ => if c < 2 then NetResult.conn c
        else NetResult.resp 200 [[("spend", Cell.str "1")]])
      OPTIONAL_GROUPS NUMERIC_FIELDS ["spend"] 0
    = ⟨.ok (processResponse NUMERIC_FIELDS ["spend"] [[("spend", Cell.str "1")]]),
       [3, 6], 3, 3⟩ := by
  have h := retry_policy
    (fun c _ => if c < 2 then NetResult.conn c
      else NetResult.resp 200 [[("spend", Cell.str "1")]])
    OPTIONAL_GROUPS NUMERIC_FIELDS ["spend"] 0
  exact h.2.2.2.2 0 1 1 2
    (processResponse NUMERIC_FIELDS ["spend"] [[("spend", Cell.str "1")]]) 3
    rfl rfl rfl

lemma map_numCoerce_map_num (qs : List ℚ) : (qs.map Cell.num).map numCoerce = qs := by
  rw [List.map_map]
  conv_rhs => rw [← List.map_id qs]
  apply List.map_congr_left
  intro q _
  rfl

lemma foldl_max_le (b : ℚ) :
    ∀ (l : List ℚ) (a : ℚ), a ≤ b → (∀ q ∈ l, q ≤ b) → l.foldl max a ≤ b := by
  intro l
  induction l with
  | nil =>
    intro a ha _
    simpa using ha
  | cons q l ih =>
    intro a ha h
    rw [List.foldl_cons]
    exact ih (max a q) (max_le ha (h q (List.mem_cons_self _ _)))
      (fun x hx => h x (List.mem_cons_of_mem _ hx))

lemma ratMax_le_of (qs : List ℚ) (b : ℚ) (hne : qs ≠ [])
    (h : ∀ q ∈ qs, q ≤ b) : ratMax qs ≤ b := by
  cases qs with
  | nil => exact absurd rfl hne
  | cons q l =>
    rw [ratMax]
    exact foldl_max_le b l q (h q (List.mem_cons_self _ _))
      (fun x hx => h x (List.mem_cons_of_mem _ hx))

lemma map_num_eq_scaled (qs : List ℚ)
    (h : qs.map Cell.num = qs.map (fun q => Cell.num (q * 100))) :
    ∀ q ∈ qs, q = q * 100 := by
  induction qs with
  | nil => intro q hq; exact absurd hq (List.not_mem_nil q)
  | cons a l ih =>
    rw [List.map_cons, List.map_cons] at h
    injection h with h1 h2
    intro q hq
    rcases List.mem_cons.mp hq with hq | hq
    · subst hq
      injection h1
    · exact ih h2 q hq

lemma getCol_normOne_ne (df : DataFrame) (c x : String) (h : x ≠ c) :
    getCol (normOne df c) x = getCol df x := by
  unfold normOne
  cases hg : getCol df c with
  | none => rfl
  | some cells =>
    dsimp only
    split
    · exact getCol_setCol_ne df c x _ h
    · exact getCol_setCol_ne df c x _ h

lemma normOne_self_spec (df : DataFrame) (col : String) (qs : List ℚ)
    (hget : getCol df col = some (qs.map Cell.num)) :
    getCol (normOne df col) col =
      if 0 < qs.length ∧ ratMax qs ≤ 1
      then some (qs.map (fun q => Cell.num (q * 100)))
      else some (qs.map Cell.num) := by
  unfold normOne
  rw [hget]
  simp only [map_numCoerce_map_num]
  split
  · rw [getCol_setCol_self, hget]
    rfl
  · rw [getCol_setCol_self, hget]
    rfl

lemma normaliseRates_eq (df : DataFrame) :
    normaliseRates df =
      normOne (normOne (normOne (normOne df "bounceRate") "engagementRate")
        "bounce_rate") "engagement_rate" := rfl

lemma getCol_normaliseRates (df : DataFrame) (col : String) (qs : List ℚ)
    (hcol : col ∈ RATE_COLS)
    (hget : getCol df col = some (qs.map Cell.num)) :
    getCol (normaliseRates df) col =
      if 0 < qs.length ∧ ratMax qs ≤ 1
      then some (qs.map (fun q => Cell.num (q * 100)))
      else some (qs.map Cell.num) := by
  rw [normaliseRates_eq]
  have hmem : col = "bounceRate" ∨ col = "engagementRate" ∨ col = "bounce_rate"
      ∨ col = "engagement_rate" := by
    simpa [RATE_COLS] using hcol
  rcases hmem with rfl | rfl | rfl | rfl
  · rw [getCol_normOne_ne _ _ _ (by decide), getCol_normOne_ne _ _ _ (by decide),
      getCol_normOne_ne _ _ _ (by decide)]
    exact normOne_self_spec df "bounceRate" qs hget
  · rw [getCol_normOne_ne _ _ _ (by decide), getCol_normOne_ne _ _ _ (by decide)]
    apply normOne_self_spec
    rw [getCol_normOne_ne _ _ _ (by decide)]
    exact hget
  · rw [getCol_normOne_ne _ _ _ (by decide)]
    apply normOne_self_spec
    rw [getCol_normOne_ne _ _ _ (by decide), getCol_normOne_ne _ _ _ (by decide)]
    exact hget
  · apply normOne_self_spec
    rw [getCol_normOne_ne _ _ _ (by decide), getCol_normOne_ne _ _ _ (by decide),
      getCol_normOne_ne _ _ _ (by decide)]
    exact hget

/-- C4 (amended): for a designated rate column holding numeric values,
(1) if the values lie in [0, 100] and the observed maximum exceeds 1,
applying the normaliser leaves them identical; (2) if the values lie in
[0, 1], it multiplies each by exactly 100, landing in [0, 100]; (3) for
a non-empty column the rescale happens exactly when the observed
maximum is ≤ 1.  (Idempotence over all of [0, 100], as the claim states
it, is false: a column whose maximum is still ≤ 1 is rescaled again —
see the counterexample.) -/
theorem rate_normalisation (df : DataFrame) (col : String) (qs : List ℚ)
    (hcol : col ∈ RATE_COLS)
    (hget : getCol df col = some (qs.map Cell.num)) :
    ((∀ q ∈ qs, 0 ≤ q ∧ q ≤ 100) → 1 < ratMax qs →
      getCol (normaliseRates df) col = some (qs.map Cell.num))
    ∧ ((∀ q ∈ qs, 0 ≤ q ∧ q ≤ 1) →
      getCol (normaliseRates df) col = some (qs.map (fun q => Cell.num (q * 100)))
      ∧ (∀ q ∈ qs, 0 ≤ q * 100 ∧ q * 100 ≤ 100))
    ∧ (qs ≠ [] →
      (getCol (normaliseRates df) col = some (qs.map (fun q => Cell.num (q * 100)))
       ↔ ratMax qs ≤ 1)) := by
  have hmain := getCol_normaliseRates df col qs hcol hget
  refine ⟨?_, ?_, ?_⟩
  · intro _ hmax
    rw [hmain, if_neg]
    rintro ⟨_, hle⟩
    exact absurd hle (not_le.mpr hmax)
  · intro hq
    constructor
    · rcases eq_or_ne qs [] with rfl | hne
      · rw [hmain, if_neg (by simp)]
        rfl
      · have hmax : ratMax qs ≤ 1 := ratMax_le_of qs 1 hne (fun q hmem => (hq q hmem).2)
        rw [hmain, if_pos ⟨List.length_pos.mpr hne, hmax⟩]
    · intro q hmem
      rcases hq q hmem with ⟨h0, h1⟩
      constructor
      · exact mul_nonneg h0 (by norm_num)
      · have := mul_le_mul_of_nonneg_right h1 (by norm_num : (0 : ℚ) ≤ 100)
        simpa using this
  · intro hne
    constructor
    · intro hres
      by_contra hmax
      rw [hmain, if_neg (fun hc => hmax hc.2)] at hres
      have heq : qs.map Cell.num = qs.map (fun q => Cell.num (q * 100)) :=
        Option.some.inj hres
      have hz := map_num_eq_scaled qs heq
      apply hmax
      apply ratMax_le_of qs 1 hne
      intro q hq
      have h100 := hz q hq
      nlinarith [h100]
    · intro hmax
      rw [hmain, if_pos ⟨List.length_pos.mpr hne, hmax⟩]

/-- Witness for `rate_normalisation`: a bounceRate column [50] (max > 1)
is left unchanged; an engagementRate column [1] (max ≤ 1) is rescaled
to [100]. -/
theorem rate_normalisation_witness :
    getCol (normaliseRates ⟨1, [("bounceRate", [Cell.num 50]),
        ("engagementRate", [Cell.num 1])]⟩) "bounceRate" = some [Cell.num 50]
    ∧ getCol (normaliseRates ⟨1, [("bounceRate", [Cell.num 50]),
        ("engagementRate", [Cell.num 1])]⟩) "engagementRate" = some [Cell.num 100] := by
  constructor
  · have h := (rate_normalisation ⟨1, [("bounceRate", [Cell.num 50]),
        ("engagementRate", [Cell.num 1])]⟩ "bounceRate" [50] (by decide) rfl).1
      (by intro q hq; simp at hq; subst hq; norm_num)
      (by show (1 : ℚ) < ratMax [50]; norm_num [ratMax])
    simpa using h
  · have h := ((rate_normalisation ⟨1, [("bounceRate", [Cell.num 50]),
        ("engagementRate", [Cell.num 1])]⟩ "engagementRate" [1] (by decide) rfl).2.1
      (by intro q hq; simp at hq; subst hq; norm_num)).1
    simpa using h

/-- Counterexample to C4 as stated: the column [1] lies in [0, 100],
yet the normaliser rescales it to [100] (its maximum is ≤ 1), so
re-applying the normaliser to a column whose values lie in [0, 100] is
NOT always the identity. -/
theorem rate_normalisation_cex :
    (0 ≤ (1 : ℚ) ∧ (1 : ℚ) ≤ 100)
    ∧ getCol (normaliseRates ⟨1, [("bounceRate", [Cell.num 1])]⟩) "bounceRate"
        = some [Cell.num 100]
    ∧ (some [Cell.num (100 : ℚ)] ≠ some [Cell.num (1 : ℚ)]) := by
  refine ⟨by norm_num, ?_, by decide⟩
  have h := getCol_normaliseRates ⟨1, [("bounceRate", [Cell.num 1])]⟩
    "bounceRate" [1] (by decide) rfl
  have hcond : 0 < ([1] : List ℚ).length ∧ ratMax [1] ≤ 1 := by
    refine ⟨by norm_num, ?_⟩
    show ratMax [1] ≤ 1
    norm_num [ratMax]
  rw [if_pos hcond] at h
  simpa using h

/-- "Field survives the first `n` groups": true iff no group among the
first `n` contains it. -/
def keepPred (groups : List (List String)) (n : Nat) (f : String) : Bool :=
  (groups.take n).all (fun g => !g.contains f)

/-- The expected sequence of fallback resubmissions after inspecting
the first `n` groups: the successively shrunken field lists, one entry
for each inspected group whose removal dropped at least one field. -/
def shrinkSteps (groups : List (List String)) (fields : List String) (n : Nat) :
    List (List String) :=
  (List.range n).filterMap (fun k =>
    if (fields.filter (keepPred groups (k + 1))).length
        < (fields.filter (keepPred groups k)).length
    then some (fields.filter (keepPred groups (k + 1))) else none)

lemma filter_keepPred_zero (groups : List (List String)) (l : List String) :
    l.filter (keepPred groups 0) = l := by
  have h : keepPred groups 0 = fun _ => true := rfl
  rw [h, List.filter_true]

lemma keepPred_succ (g : List String) (gs : List (List String)) (n : Nat) (f : String) :
    keepPred (g :: gs) (n + 1) f = (!g.contains f && keepPred gs n f) := by
  rw [keepPred, keepPred, List.take_succ_cons, List.all_cons]

lemma filter_comp (g : List String) (gs : List (List String)) (n : Nat)
    (l : List String) :
    (l.filter (fun f => !g.contains f)).filter (keepPred gs n)
      = l.filter (keepPred (g :: gs) (n + 1)) := by
  rw [List.filter_filter]
  apply List.filter_congr
  intro f _
  rw [keepPred_succ]
  exact (Bool.and_comm _ _).symm

lemma filter_keepPred_one (g : List String) (gs : List (List String))
    (l : List String) :
    l.filter (keepPred (g :: gs) 1) = l.filter (fun f => !g.contains f) := by
  rw [← filter_comp g gs 0 l, filter_keepPred_zero]

lemma keepPred_mono (groups : List (List String)) (i j : Nat) (f : String)
    (hij : i ≤ j) (h : keepPred groups j f = true) : keepPred groups i f = true := by
  rw [keepPred, List.all_eq_true] at h ⊢
  intro g hg
  apply h
  have h1 : (groups.take j).take i = groups.take i := by
    rw [List.take_take, Nat.min_eq_left hij]
  have hsub : List.Sublist (groups.take i) (groups.take j) := by
    rw [← h1]
    exact List.take_sublist i (groups.take j)
  exact hsub.subset hg

lemma shrinkSteps_zero (groups : List (List String)) (fields : List String) :
    shrinkSteps groups fields 0 = [] := rfl

lemma shrinkSteps_succ_cons (g : List String) (gs : List (List String))
    (fields : List String) (n : Nat) :
    shrinkSteps (g :: gs) fields (n + 1) =
      (if (fields.filter (fun f => !g.contains f)).length < fields.length
       then [fields.filter (fun f => !g.contains f)] else [])
      ++ shrinkSteps gs (fields.filter (fun f => !g.contains f)) n := by
  have hh0 : (if (fields.filter (keepPred (g :: gs) (0 + 1))).length
        < (fields.filter (keepPred (g :: gs) 0)).length
      then some (fields.filter (keepPred (g :: gs) (0 + 1))) else none)
      = (if (fields.filter (fun f => !g.contains f)).length < fields.length
         then some (fields.filter (fun f => !g.contains f)) else none) := by
    rw [show (0 : Nat) + 1 = 1 from rfl, filter_keepPred_one, filter_keepPred_zero]
  have htail : List.filterMap
      ((fun k => if (fields.filter (keepPred (g :: gs) (k + 1))).length
          < (fields.filter (keepPred (g :: gs) k)).length
        then some (fields.filter (keepPred (g :: gs) (k + 1))) else none) ∘ Nat.succ)
      (List.range n)
      = shrinkSteps gs (fields.filter (fun f => !g.contains f)) n := by
    rw [shrinkSteps]
    apply List.filterMap_congr
    intro k _
    simp only [Function.comp_apply]
    rw [show Nat.succ k + 1 = (k + 1) + 1 from rfl,
      ← filter_comp g gs (k + 1) fields, ← filter_comp g gs k fields]
  rw [shrinkSteps, List.range_succ_eq_map, List.filterMap_cons, List.filterMap_map,
    htail, hh0]
  by_cases hc : (fields.filter (fun f => !g.contains f)).length < fields.length
  · rw [if_pos hc, if_pos hc]
    rfl
  · rw [if_neg hc, if_neg hc]
    rfl

/-- The full functional specification of the 400 fallback loop: there
is a number `n` of inspected groups (all of them when the rejection
persisted) such that the surviving field list is the original minus the
union of the first `n` groups, the resubmitted field lists are exactly
the successive shrinks among those `n`, every resubmission before the
last received a 400, the final status/body are the last resubmission's
(or the incoming ones when no resubmission happened), and one network
call was made per resubmission. -/
lemma fallbackLoop_spec (tr : Transport) :
    ∀ (groups : List (List String)) (flds : List String) (st : Nat) (bd : List Row)
      (c : Nat) (rem : List String) (st' : Nat) (bd' : List Row) (c' : Nat)
      (trace : List (List String × Nat)),
      fallbackLoop tr groups flds st bd c = FbOut.done rem st' bd' c' trace →
      ∃ n, n ≤ groups.length
        ∧ rem = flds.filter (keepPred groups n)
        ∧ trace.map Prod.fst = shrinkSteps groups flds n
        ∧ (∀ p ∈ trace.dropLast, p.2 = 400)
        ∧ (trace = [] → st' = st ∧ bd' = bd)
        ∧ (∀ p, trace.getLast? = some p → st' = p.2)
        ∧ c' = c + trace.length
        ∧ (st' = 400 → n = groups.length) := by
  intro groups
  induction groups with
  | nil =>
    intro flds st bd c rem st' bd' c' trace h
    rw [fallbackLoop] at h
    simp only [FbOut.done.injEq] at h
    obtain ⟨h1, h2, h3, h4, h5⟩ := h
    subst h1; subst h2; subst h3; subst h4; subst h5
    refine ⟨0, Nat.le_refl 0, (filter_keepPred_zero _ _).symm, rfl, ?_, ?_, ?_, rfl, ?_⟩
    · intro p hp
      simp at hp
    · intro _
      exact ⟨rfl, rfl⟩
    · intro p hp
      simp at hp
    · intro _
      rfl
  | cons g gs ih =>
    intro flds st bd c rem st' bd' c' trace h
    rw [fallbackLoop] at h
    by_cases hlen : (flds.filter (fun f => !g.contains f)).length < flds.length
    · rw [if_pos hlen] at h
      cases htr : tr c (flds.filter (fun f => !g.contains f)) with
      | conn e =>
        rw [htr] at h
        dsimp only at h
        exact absurd h (by simp)
      | resp st₁ bd₁ =>
        rw [htr] at h
        dsimp only at h
        by_cases h400 : st₁ = 400
        · rw [if_pos h400] at h
          cases hrec : fallbackLoop tr gs (flds.filter (fun f => !g.contains f))
              st₁ bd₁ (c + 1) with
          | conn e c₂ =>
            rw [hrec] at h
            exact absurd h (by simp [FbOut.consTrace])
          | done rem₂ st₂ bd₂ c₂ tr₂ =>
            rw [hrec] at h
            simp only [FbOut.consTrace, FbOut.done.injEq] at h
            obtain ⟨h1, h2, h3, h4, h5⟩ := h
            subst h1; subst h2; subst h3; subst h4
            subst h5
            obtain ⟨n, hn, hrem, htr2, hdrop, hemp, hlast, hc, hst400⟩ :=
              ih (flds.filter (fun f => !g.contains f)) st₁ bd₁ (c + 1)
                rem₂ st₂ bd₂ c₂ tr₂ hrec
            refine ⟨n + 1, Nat.succ_le_succ hn, ?_, ?_, ?_, ?_, ?_, ?_, ?_⟩
            · rw [hrem, filter_comp]
            · rw [List.map_cons, shrinkSteps_succ_cons, if_pos hlen, htr2]
              rfl
            · intro p hp
              cases tr₂ with
              | nil => simp at hp
              | cons q qs =>
                rw [List.dropLast_cons₂] at hp
                rcases List.mem_cons.mp hp with hp | hp
                · rw [hp]
                  exact h400
                · exact hdrop p hp
            · intro hcontr
              cases hcontr
            · intro p hp
              cases tr₂ with
              | nil =>
                simp only [List.getLast?_singleton, Option.some.injEq] at hp
                rw [← hp]
                exact (hemp rfl).1
              | cons q qs =>
                rw [List.getLast?_cons_cons] at hp
                exact hlast p hp
            · rw [List.length_cons, hc]
              omega
            · intro h4
              rw [hst400 h4, List.length_cons]
        · rw [if_neg h400] at h
          simp only [FbOut.done.injEq] at h
          obtain ⟨h1, h2, h3, h4, h5⟩ := h
          subst h1; subst h2; subst h3; subst h4; subst h5
          refine ⟨1, by simp, ?_, ?_, ?_, ?_, ?_, ?_, ?_⟩
          · rw [filter_keepPred_one]
          · rw [List.map_cons, List.map_nil, shrinkSteps_succ_cons, if_pos hlen,
              shrinkSteps_zero, List.append_nil]
          · intro p hp
            simp at hp
          · intro hcontr
            cases hcontr
          · intro p hp
            simp only [List.getLast?_singleton, Option.some.injEq] at hp
            rw [← hp]
          · simp
          · intro h4
            exact absurd h4 h400
    · rw [if_neg hlen] at h
      obtain ⟨n, hn, hrem, htrace, hdrop, hemp, hlast, hc, hst400⟩ :=
        ih (flds.filter (fun f => !g.contains f)) st bd c rem st' bd' c' trace h
      refine ⟨n + 1, Nat.succ_le_succ hn, ?_, ?_, hdrop, hemp, hlast, hc, ?_⟩
      · rw [hrem, filter_comp]
      · rw [htrace, shrinkSteps_succ_cons, if_neg hlen, List.nil_append]
      · intro h4
        rw [hst400 h4, List.length_cons]

lemma keysUnion_aux (rows : List Row) : ∀ (acc : List String) (x : String),
    x ∈ rows.foldl
      (fun acc r => acc ++ (r.map Prod.fst).filter (fun k => !acc.contains k)) acc →
    x ∈ acc ∨ ∃ r ∈ rows, ∃ kv ∈ r, kv.1 = x := by
  induction rows with
  | nil =>
    intro acc x h
    rw [List.foldl_nil] at h
    exact Or.inl h
  | cons r rs ih =>
    intro acc x h
    rw [List.foldl_cons] at h
    rcases ih _ x h with hacc | ⟨r', hr', hkv⟩
    · rcases List.mem_append.mp hacc with h1 | h2
      · exact Or.inl h1
      · right
        refine ⟨r, List.mem_cons_self _ _, ?_⟩
        have hm := (List.mem_filter.mp h2).1
        rcases List.mem_map.mp hm with ⟨kv, hkvr, hfst⟩
        exact ⟨kv, hkvr, hfst⟩
    · exact Or.inr ⟨r', List.mem_cons_of_mem _ hr', hkv⟩

lemma mem_keysUnion (rows : List Row) (x : String) (h : x ∈ keysUnion rows) :
    ∃ r ∈ rows, ∃ kv ∈ r, kv.1 = x := by
  rcases keysUnion_aux rows [] x h with hnil | hr
  · exact absurd hnil (List.not_mem_nil x)
  · exact hr

/-- C3: on a 400, the resolver walks the optional groups in order; the
surviving field list is the original minus the union of the first `n`
inspected groups (whole groups, removed atomically), one resubmission
is made per inspected group that still had a field present — the
resubmitted lists are exactly the successive shrinks — every
resubmission before the last got a 400 (stop at the first non-400),
rejection surviving all groups means all were inspected; the surviving
list is a sublist of the original (nothing absent is ever removed,
nothing removed reappears: the result is a sublist of every
resubmission), fields outside the groups are never dropped, and a
final error status (after fallback) is raised to the caller. -/
theorem schema_fallback (tr : Transport) (groups : List (List String))
    (flds : List String) (st0 : Nat) (bd0 : List Row) (c : Nat)
    (rem : List String) (st' : Nat) (bd' : List Row) (c' : Nat)
    (trace : List (List String × Nat))
    (h : fallbackLoop tr groups flds st0 bd0 c = FbOut.done rem st' bd' c' trace) :
    (∃ n, n ≤ groups.length
       ∧ rem = flds.filter (keepPred groups n)
       ∧ trace.map Prod.fst = shrinkSteps groups flds n
       ∧ (st' = 400 → n = groups.length))
    ∧ List.Sublist rem flds
    ∧ (∀ f ∈ flds, f ∉ rem → ∃ g ∈ groups, f ∈ g)
    ∧ (∀ x ∈ trace.map Prod.fst, List.Sublist rem x ∧ List.Sublist x flds)
    ∧ (∀ p ∈ trace.dropLast, p.2 = 400)
    ∧ (∀ p, trace.getLast? = some p → st' = p.2)
    ∧ c' = c + trace.length
    ∧ (∀ numeric c₀ rem₂ st₂ bd₂ c₂ tr₂,
        resolve tr groups flds c₀ = FbOut.done rem₂ st₂ bd₂ c₂ tr₂ →
        400 ≤ st₂ → st₂ < 600 →
        attemptBody tr groups numeric flds c₀ = .httpFail st₂ c₂) := by
  obtain ⟨n, hn, hrem, htrace, hdrop, _hemp, hlast, hc, hst⟩ :=
    fallbackLoop_spec tr groups flds st0 bd0 c rem st' bd' c' trace h
  refine ⟨⟨n, hn, hrem, htrace, hst⟩, ?_, ?_, ?_, hdrop, hlast, hc, ?_⟩
  · rw [hrem]
    exact List.filter_sublist flds
  · intro f hf hfr
    rw [hrem] at hfr
    by_cases hkeep : keepPred groups n f = true
    · exact absurd (List.mem_filter.mpr ⟨hf, hkeep⟩) hfr
    · rw [keepPred, List.all_eq_true] at hkeep
      push_neg at hkeep
      obtain ⟨grp, hgmem, hgf⟩ := hkeep
      refine ⟨grp, (List.take_sublist n groups).subset hgmem, ?_⟩
      simpa using hgf
  · intro x hx
    rw [htrace, shrinkSteps] at hx
    obtain ⟨k, hkmem, hkx⟩ := List.mem_filterMap.mp hx
    rw [List.mem_range] at hkmem
    by_cases hcond : (flds.filter (keepPred groups (k + 1))).length
        < (flds.filter (keepPred groups k)).length
    · rw [if_pos hcond] at hkx
      have hxeq := Option.some.inj hkx
      constructor
      · rw [hrem, ← hxeq]
        exact List.monotone_filter_right flds
          (fun a ha => keepPred_mono groups (k + 1) n a (by omega) ha)
      · rw [← hxeq]
        exact List.filter_sublist flds
    · rw [if_neg hcond] at hkx
      exact absurd hkx (by simp)
  · intro numeric c₀ rem₂ st₂ bd₂ c₂ tr₂ hres h4 h6
    rw [attemptBody_done tr groups numeric flds c₀ rem₂ st₂ bd₂ c₂ tr₂ hres,
      if_pos ⟨h4, h6⟩]

/-- Witness for `schema_fallback`: a transport that rejects two-field
lists and accepts one-field lists; the resolver drops the group
`["b"]`, resubmits `["a"]` once, and stops at the 200. -/
theorem schema_fallback_witness :
    (∃ n, n ≤ ([["b"], ["c"]] : List (List String)).length
       ∧ (["a"] : List String)
           = (["a", "b"] : List String).filter (keepPred [["b"], ["c"]] n)
       ∧ ([(["a"], 200)] : List (List String × Nat)).map Prod.fst
           = shrinkSteps [["b"], ["c"]] ["a", "b"] n
       ∧ ((200 : Nat) = 400 → n = ([["b"], ["c"]] : List (List String)).length))
    ∧ List.Sublist (["a"] : List String) ["a", "b"]
    ∧ (∀ f ∈ (["a", "b"] : List String), f ∉ (["a"] : List String) →
        ∃ g ∈ ([["b"], ["c"]] : List (List String)), f ∈ g)
    ∧ (∀ x ∈ ([(["a"], 200)] : List (List String × Nat)).map Prod.fst,
        List.Sublist (["a"] : List String) x ∧ List.Sublist x ["a", "b"])
    ∧ (∀ p ∈ ([(["a"], 200)] : List (List String × Nat)).dropLast, p.2 = 400)
    ∧ (∀ p, ([(["a"], 200)] : List (List String × Nat)).getLast? = some p →
        (200 : Nat) = p.2)
    ∧ (2 : Nat) = 1 + ([(["a"], 200)] : List (List String × Nat)).length
    ∧ (∀ numeric c₀ rem₂ st₂ bd₂ c₂ tr₂,
        resolve (fun _ fs => if fs.length = 1
            then NetResult.resp 200 [] else NetResult.resp 400 [])
          [["b"], ["c"]] ["a", "b"] c₀ = FbOut.done rem₂ st₂ bd₂ c₂ tr₂ →
        400 ≤ st₂ → st₂ < 600 →
        attemptBody (fun _ fs => if fs.length = 1
            then NetResult.resp 200 [] else NetResult.resp 400 [])
          [["b"], ["c"]] numeric ["a", "b"] c₀ = .httpFail st₂ c₂) :=
  schema_fallback
    (fun _ fs => if fs.length = 1 then NetResult.resp 200 [] else NetResult.resp 400 [])
    [["b"], ["c"]] ["a", "b"] 400 [] 1 ["a"] 200 [] 2 [(["a"], 200)] rfl

/-- C7 (amended): when the accepted response is non-empty and its rows
only carry fields from the submitted (post-fallback) field list, the
returned table has no column named after a field the fallback removed.
(Including the zero-row case, as the claim states it, this is false:
the zero-row early return builds the empty frame from the ORIGINAL
field list — see the counterexample.) -/
theorem no_removed_columns (tr : Transport) (groups : List (List String))
    (numeric fields : List String) (c : Nat) (rem : List String) (st : Nat)
    (bd : List Row) (c₂ : Nat) (trace : List (List String × Nat))
    (hres : resolve tr groups fields c = FbOut.done rem st bd c₂ trace)
    (hacc : ¬ (400 ≤ st ∧ st < 600))
    (hne : bd ≠ [])
    (hkeys : ∀ r ∈ bd, ∀ kv ∈ r, kv.1 ∈ rem)
    (f : String) (hf : f ∈ fields) (hfrem : f ∉ rem) :
    ∀ df c₃, attemptBody tr groups numeric fields c = .success df c₃ →
      f ∉ colNames df := by
  intro df c₃ hsucc
  rw [attemptBody_done tr groups numeric fields c rem st bd c₂ trace hres,
    if_neg hacc] at hsucc
  simp only [SingleOutcome.success.injEq] at hsucc
  obtain ⟨hdf, _⟩ := hsucc
  rw [← hdf, colNames_processResponse_of_ne numeric fields bd hne]
  intro hmem
  obtain ⟨r, hr, kv, hkvr, hfst⟩ := mem_keysUnion bd f hmem
  have := hkeys r hr kv hkvr
  rw [hfst] at this
  exact hfrem this

/-- Counterexample to C7 as stated: the fallback removes `video_views`
and the accepted response has zero rows, yet the returned empty table's
columns are the ORIGINAL fields, so the removed `video_views` column is
present. -/
theorem no_removed_columns_cex :
    resolve (fun _ fs => if fs.length ≤ 1
        then NetResult.resp 200 [] else NetResult.resp 400 [])
      OPTIONAL_GROUPS ["date", "video_views"] 0
      = FbOut.done ["date"] 200 [] 2 [(["date"], 200)]
    ∧ attemptBody (fun _ fs => if fs.length ≤ 1
        then NetResult.resp 200 [] else NetResult.resp 400 [])
      OPTIONAL_GROUPS NUMERIC_FIELDS ["date", "video_views"] 0
      = .success (emptyDF ["date", "video_views"]) 2
    ∧ "video_views" ∉ (["date"] : List String)
    ∧ "video_views" ∈ colNames (emptyDF ["date", "video_views"]) := by
  refine ⟨rfl, rfl, by decide, by decide⟩

/-- C6: GA4's `_fetch_single` — a successful base fetch is rate-normalised;
on an `HTTPError` the entire request is retried exactly once with every
field renamed to snake_case and, on success, the result's columns are
renamed back to the original camelCase names before rate normalisation;
if the renamed retry also fails at HTTP level, that HTTP error
propagates.  Rate normalisation runs after every successful single
fetch (hence per chunk, since `_fetch` calls `_fetch_single` once per
chunk). -/
theorem ga4_dialect_fallback (tr : Transport) (fields : List String) (c : Nat) :
    (∀ df d a c₁,
      fetchSingle tr GA4_OPTIONAL_GROUPS GA4_NUMERIC_FIELDS fields c
        = ⟨.ok df, d, a, c₁⟩ →
      ga4FetchSingle tr fields c = ⟨.ok (normaliseRates df), d, a, c₁⟩)
    ∧ (∀ s d a c₁ df d₂ a₂ c₂,
      fetchSingle tr GA4_OPTIONAL_GROUPS GA4_NUMERIC_FIELDS fields c
        = ⟨.errHTTP s, d, a, c₁⟩ →
      fetchSingle tr GA4_OPTIONAL_GROUPS GA4_NUMERIC_FIELDS
        (fields.map camelToSnake) c₁ = ⟨.ok df, d₂, a₂, c₂⟩ →
      ga4FetchSingle tr fields c
        = ⟨.ok (normaliseRates (renameCols (renameMap fields) df)),
           d ++ d₂, a + a₂, c₂⟩)
    ∧ (∀ s d a c₁ s₂ d₂ a₂ c₂,
      fetchSingle tr GA4_OPTIONAL_GROUPS GA4_NUMERIC_FIELDS fields c
        = ⟨.errHTTP s, d, a, c₁⟩ →
      fetchSingle tr GA4_OPTIONAL_GROUPS GA4_NUMERIC_FIELDS
        (fields.map camelToSnake) c₁ = ⟨.errHTTP s₂, d₂, a₂, c₂⟩ →
      ga4FetchSingle tr fields c = ⟨.errHTTP s₂, d ++ d₂, a + a₂, c₂⟩) := by
  refine ⟨?_, ?_, ?_⟩
  · intro df d a c₁ hbase
    rw [ga4FetchSingle, hbase]
  · intro s d a c₁ df d₂ a₂ c₂ hbase hsnake
    rw [ga4FetchSingle, hbase]
    dsimp only
    rw [hsnake]
  · intro s d a c₁ s₂ d₂ a₂ c₂ hbase hsnake
    rw [ga4FetchSingle, hbase]
    dsimp only
    rw [hsnake]

/-- Witness for `ga4_dialect_fallback`: the spec's dialect scenario —
`screenPageViews` is rejected with a 500, the retry with
`screen_page_views` succeeds, and the final table's column is named
`screenPageViews` again. -/
theorem ga4_dialect_fallback_witness :
    ga4FetchSingle
      (fun _ fs => if fs = ["screenPageViews"] then NetResult.resp 500 []
        else NetResult.resp 200 [[("screen_page_views", Cell.str "5")]])
      ["screenPageViews"] 0
    = ⟨.ok ⟨1, [("screenPageViews", [Cell.num 5])]⟩, [], 2, 2⟩ := by
  have h := (ga4_dialect_fallback
    (fun _ fs => if fs = ["screenPageViews"] then NetResult.resp 500 []
      else NetResult.resp 200 [[("screen_page_views", Cell.str "5")]])
    ["screenPageViews"] 0).2.1 500 [] 1 1
    (processResponse GA4_NUMERIC_FIELDS ["screen_page_views"]
      [[("screen_page_views", Cell.str "5")]]) [] 1 2 rfl rfl
  rw [h]
  rfl

/-- Witness for `no_removed_columns`: the fallback removes
`video_views`, the accepted response has one row mentioning only
`date`, and the returned table indeed has no `video_views` column. -/
theorem no_removed_columns_witness :
    "video_views" ∉ colNames (processResponse NUMERIC_FIELDS ["date", "video_views"]
      [[("date", Cell.str "x")]]) :=
  no_removed_columns
    (fun _ fs => if fs.length ≤ 1 then NetResult.resp 200 [[("date", Cell.str "x")]]
      else NetResult.resp 400 [])
    OPTIONAL_GROUPS NUMERIC_FIELDS ["date", "video_views"] 0 ["date"] 200
    [[("date", Cell.str "x")]] 2 [(["date"], 200)] rfl (by omega) (by simp)
    (by decide) "video_views" (by decide) (by decide)
    (processResponse NUMERIC_FIELDS ["date", "video_views"]
      [[("date", Cell.str "x")]]) 2 rfl
